import Mathlib

/-!
Verification development for the Nanonis-QCodes-Controller repository.

Shallow embedding of the guarded write policy
(`src/nanonis_qcodes_controller/safety/policy.py`), the trajectory monitor
(`src/nanonis_qcodes_controller/trajectory/monitor.py`), the SQLite store
(`src/nanonis_qcodes_controller/trajectory/sqlite_store.py`) and the
transport/backend error path
(`src/nanonis_qcodes_controller/client/nanonis_spm_backend.py`,
`src/nanonis_qcodes_controller/client/transport.py`).

Python floats are embedded as rationals (exact arithmetic; IEEE-754 rounding
is not modelled, which also makes the float-drift repair in `_build_steps` a
provable no-op).  Python exceptions are embedded as `Except` error values.
-/

namespace Nanonis

/-! ### safety/policy.py — data model -/

/-- `PolicyViolation` (including its subclass `ConfirmationRequired`):
the distinct failure modes raised by the policy layer, carrying the data the
Python messages interpolate. -/
inductive PolicyError where
  | writesDisabled
  | noChannelLimit (channel : String)
  | targetOutOfBounds (channel : String) (target lo hi : ℚ)
  | cooldownActive (channel : String) (remaining : ℚ)
  | confirmationRequired (channel : String)
  | rampIntervalNotPositive
  | singleStepTooLarge (channel : String)
  | singleStepSlewExceeded (channel : String)
  deriving Repr, DecidableEq

/-- `ChannelLimit` dataclass (policy.py lines 19-39). -/
structure ChannelLimit where
  min_value : ℚ
  max_value : ℚ
  max_step : ℚ
  max_slew_per_s : Option ℚ
  cooldown_s : ℚ
  require_confirmation : Bool
  ramp_interval_s : ℚ
  deriving Repr, DecidableEq

/-- `WritePlan` dataclass (policy.py lines 42-55). -/
structure WritePlan where
  channel : String
  current_value : ℚ
  target_value : ℚ
  bounded_target : ℚ
  steps : List ℚ
  interval_s : ℚ
  dry_run : Bool
  reason : Option String
  deriving Repr, DecidableEq

/-- `WritePlan.step_count`. -/
def WritePlan.step_count (plan : WritePlan) : ℕ := plan.steps.length

/-- `WriteExecutionReport` dataclass (policy.py lines 58-66). -/
structure WriteExecutionReport where
  channel : String
  dry_run : Bool
  attempted_steps : ℕ
  applied_steps : ℕ
  initial_value : ℚ
  target_value : ℚ
  final_value : ℚ
  deriving Repr, DecidableEq

/-- `WritePolicy` dataclass state (policy.py lines 72-78): limits and the
in-memory last-write table are association lists keyed by channel name; the
confirmation hook is an optional callback. -/
structure WritePolicy where
  allow_writes : Bool
  dry_run : Bool
  limits : List (String × ChannelLimit)
  confirmation_hook : Option (String → ℚ → ℚ → Option String → Bool)
  last_write_at : List (String × ℚ)

/-! ### safety/policy.py — operations -/

/-- `WritePolicy.ensure_writes_enabled` (policy.py lines 98-100). -/
def ensure_writes_enabled (p : WritePolicy) : Except PolicyError Unit :=
  if p.allow_writes then .ok () else .error .writesDisabled

/-- `WritePolicy._require_channel_limit` (policy.py lines 192-196). -/
def require_channel_limit (p : WritePolicy) (channel : String) :
    Except PolicyError ChannelLimit :=
  match p.limits.lookup channel with
  | some limit => .ok limit
  | none => .error (.noChannelLimit channel)

/-- `WritePolicy._enforce_cooldown` (policy.py lines 198-210).  Note the
strict `elapsed < cooldown_s` comparison on line 206. -/
def enforce_cooldown (p : WritePolicy) (channel : String) (limit : ChannelLimit)
    (now_s : ℚ) : Except PolicyError Unit :=
  if limit.cooldown_s ≤ 0 then .ok ()
  else
    match p.last_write_at.lookup channel with
    | none => .ok ()
    | some last_time =>
      let elapsed := now_s - last_time
      if elapsed < limit.cooldown_s then
        .error (.cooldownActive channel (limit.cooldown_s - elapsed))
      else .ok ()

/-- `WritePolicy._enforce_confirmation` (policy.py lines 212-234). -/
def enforce_confirmation (p : WritePolicy) (channel : String)
    (current_value target_value : ℚ) (reason : Option String)
    (confirmed require_confirmation : Bool) : Except PolicyError Unit :=
  if !require_confirmation then .ok ()
  else if confirmed then .ok ()
  else
    match p.confirmation_hook with
    | some hook =>
      if hook channel current_value target_value reason then .ok ()
      else .error (.confirmationRequired channel)
    | none => .error (.confirmationRequired channel)

/-- `_build_steps` (policy.py lines 237-256).  `step_count` is computed in ℤ
(`math.ceil`), clamped at 1, raised by the slew rule when configured, and the
steps are `current + increment * i` for `i = 1 .. step_count`; the final
drift-repair branch of the source is kept verbatim (over ℚ it never fires). -/
def build_steps (current target : ℚ) (limit : ChannelLimit) :
    Except PolicyError (List ℚ) :=
  let delta := target - current
  if delta = 0 then .ok [target]
  else do
    let base_count : ℤ := max 1 ⌈|delta| / limit.max_step⌉
    let step_count : ℤ ←
      match limit.max_slew_per_s with
      | none => pure base_count
      | some slew =>
        if limit.ramp_interval_s ≤ 0 then .error .rampIntervalNotPositive
        else
          let slew_step_size := slew * limit.ramp_interval_s
          pure (max base_count ⌈|delta| / slew_step_size⌉)
    let n : ℕ := step_count.toNat
    let increment := delta / (n : ℚ)
    let steps := (List.range' 1 n).map (fun i : ℕ => current + increment * (i : ℚ))
    if steps.getLast? = some target then .ok steps
    else .ok (steps.dropLast ++ [target])

/-- `WritePolicy.plan_scalar_write` (policy.py lines 102-145).  `now_s` is the
caller-supplied monotonic timestamp (the `time.monotonic()` default is a
parameter of the embedding). -/
def plan_scalar_write (p : WritePolicy) (channel : String)
    (current_value target_value : ℚ) (confirmed : Bool) (reason : Option String)
    (now_s : ℚ) : Except PolicyError WritePlan := do
  ensure_writes_enabled p
  let limit ← require_channel_limit p channel
  let current := current_value
  let target := target_value
  if target < limit.min_value ∨ target > limit.max_value then
    throw (.targetOutOfBounds channel target limit.min_value limit.max_value)
  enforce_cooldown p channel limit now_s
  enforce_confirmation p channel current target reason confirmed
    limit.require_confirmation
  let steps ← build_steps current target limit
  return ⟨channel, current, target, target, steps, limit.ramp_interval_s,
    p.dry_run, reason⟩

/-- `WritePolicy.record_write` (policy.py lines 189-190): dictionary update of
the last-write table. -/
def record_write (p : WritePolicy) (channel : String) (at_time_s : ℚ) :
    WritePolicy :=
  ⟨p.allow_writes, p.dry_run, p.limits, p.confirmation_hook,
    (channel, at_time_s) :: (p.last_write_at.filter (fun kv => kv.1 ≠ channel))⟩

/-- Trace of the side effects of `execute_plan`: the values handed to
`send_step` and the durations handed to `sleep`, each in call order. -/
structure ExecutionTrace where
  sends : List ℚ
  sleeps : List ℚ
  deriving Repr, DecidableEq

/-- The `for step_index, step_value in enumerate(plan.steps)` loop of
`execute_plan` (policy.py lines 169-174): returns
(applied_steps, send trace, sleep trace) for the suffix of steps starting at
index `idx`, with `attempted` the total step count. -/
def exec_loop (interval_s : ℚ) (attempted : ℕ) : ℕ → List ℚ → ℕ × List ℚ × List ℚ
  | _, [] => (0, [], [])
  | idx, v :: rest =>
    let r := exec_loop interval_s attempted (idx + 1) rest
    (r.1 + 1, v :: r.2.1,
      (if idx < attempted - 1 ∧ 0 < interval_s then [interval_s] else []) ++ r.2.2)

/-- `WritePolicy.execute_plan` (policy.py lines 147-187): returns the report,
the side-effect trace, and the updated policy (`record_write` runs on the
live path). -/
def execute_plan (p : WritePolicy) (plan : WritePlan) (now_s : ℚ) :
    WriteExecutionReport × ExecutionTrace × WritePolicy :=
  let attempted := plan.steps.length
  if plan.dry_run then
    let final_value := plan.steps.getLast?.getD plan.current_value
    (⟨plan.channel, true, attempted, 0, plan.current_value, plan.target_value,
        final_value⟩,
      ⟨[], []⟩, p)
  else
    let r := exec_loop plan.interval_s attempted 0 plan.steps
    let p' := record_write p plan.channel now_s
    let final_value := plan.steps.getLast?.getD plan.current_value
    (⟨plan.channel, false, attempted, r.1, plan.current_value, plan.target_value,
        final_value⟩,
      ⟨r.2.1, r.2.2⟩, p')

/-- Modelled from the spec: `plan_single_step` (the method the repository's own
tests call `plan_scalar_write_single_step`, src/tests/test_safety_policy.py
lines 109-173) is absent from src/nanonis_qcodes_controller/safety/policy.py;
only its tests and callers ship under src/.  Spec §4.3: produce a one-step
plan; fail if `|target - current| > max_step`; if slew is configured, fail
when `|target - current| > max_slew_per_s * interval_s`; fail if the target is
out of bounds, writes are disabled, or the cooldown has not elapsed.  The
optional `interval_s` defaults to the channel's `ramp_interval_s` and is
carried into the plan. -/
def plan_scalar_write_single_step (p : WritePolicy) (channel : String)
    (current_value target_value : ℚ) (interval_s : Option ℚ) (now_s : ℚ) :
    Except PolicyError WritePlan := do
  ensure_writes_enabled p
  let limit ← require_channel_limit p channel
  if target_value < limit.min_value ∨ target_value > limit.max_value then
    throw (.targetOutOfBounds channel target_value limit.min_value
      limit.max_value)
  enforce_cooldown p channel limit now_s
  let interval := interval_s.getD limit.ramp_interval_s
  if |target_value - current_value| > limit.max_step then
    throw (.singleStepTooLarge channel)
  match limit.max_slew_per_s with
  | some slew =>
    if |target_value - current_value| > slew * interval then
      throw (.singleStepSlewExceeded channel)
    else pure ()
  | none => pure ()
  return ⟨channel, current_value, target_value, target_value, [target_value],
    interval, p.dry_run, none⟩

/-! ### client/errors.py and client/nanonis_spm_backend.py -/

/-- Python values as they appear in spec/signal maps and payloads:
`None`, `bool`, `int`, `float` (as ℚ) and `str`. -/
inductive PyValue where
  | none
  | bool (b : Bool)
  | int (n : ℤ)
  | float (q : ℚ)
  | str (s : String)
  deriving Repr, DecidableEq

/-- The `NanonisClientError` hierarchy (client/errors.py): connection,
timeout, protocol, invalid-argument and command-unavailable kinds.  The file
defines no controller-refusal kind. -/
inductive NanonisError where
  | connectionErr (msg : String)
  | timeoutErr (msg : String)
  | protocolErr (msg : String)
  | invalidArgumentErr (msg : String)
  | commandUnavailableErr (msg : String)
  deriving Repr, DecidableEq

/-- The response envelope returned by `NanonisSpmSession._parse_response`. -/
structure CommandResponse where
  command : String
  method : String
  payload : List PyValue
  value : Option PyValue
  deriving Repr, DecidableEq

/-- The backend library's raw return value as `_parse_response` inspects it:
either the wire triple `(error_string, payload_size, payload_list)` or a bare
scalar. -/
inductive BackendResponse where
  | triple (error_string : String) (payload_size : ℤ) (payload : List PyValue)
  | scalar (v : PyValue)
  deriving Repr, DecidableEq

/-- Python's `str.strip()` on the character list: drop leading and trailing
whitespace (structural, so it evaluates; `String.trim` is position-based and
does not reduce in the kernel). -/
def py_strip_chars (l : List Char) : List Char :=
  ((l.dropWhile Char.isWhitespace).reverse.dropWhile Char.isWhitespace).reverse

/-- Python's `str.strip()`. -/
def py_strip (s : String) : String := ⟨py_strip_chars s.data⟩

/-- `NanonisSpmSession._parse_response` (nanonis_spm_backend.py lines
179-209): strip the error string; a non-empty result raises
`NanonisProtocolError` whose message appends the controller's text; otherwise
build the envelope, with `value` set when the payload is a singleton. -/
def parse_response (command method_name : String) (response : BackendResponse) :
    Except NanonisError CommandResponse :=
  let controller_error :=
    match response with
    | .triple e _ _ => py_strip e
    | .scalar _ => ""
  let payload : List PyValue :=
    match response with
    | .triple _ _ p => p
    | .scalar v => [v]
  if controller_error ≠ "" then
    .error (.protocolErr
      ("Controller returned error for command '" ++ command ++ "' ("
        ++ method_name ++ "): " ++ controller_error))
  else
    .ok ⟨command, method_name, payload,
      if payload.length = 1 then payload.head? else Option.none⟩

/-- The per-call retry loop of `NanonisTransportClient.call` (transport.py
lines 114-131) retries only these two error kinds. -/
def retried_by_call_loop : NanonisError → Bool
  | .connectionErr _ => true
  | .timeoutErr _ => true
  | _ => false

/-- `NanonisTransportClient.call`'s attempt loop (transport.py lines
114-131), with the session's successive call outcomes given as `outcome`
(indexed by 0-based attempt number; reconnection is folded into the next
outcome).  Returns the surfaced result and the number of attempts consumed.
`fuel` is the number of attempts still allowed. -/
def call_loop (outcome : ℕ → Except NanonisError CommandResponse) :
    ℕ → ℕ → Except NanonisError CommandResponse × ℕ
  | k, 0 => (.error (.connectionErr "Command retry loop exited unexpectedly."), k)
  | k, fuel + 1 =>
    match outcome k with
    | .ok r => (.ok r, k + 1)
    | .error e =>
      if retried_by_call_loop e then
        if fuel = 0 then (.error e, k + 1)
        else call_loop outcome (k + 1) fuel
      else (.error e, k + 1)

/-- `NanonisTransportClient.call` with `retry_count` (transport.py line 114:
`attempts = self._retry_count + 1`). -/
def transport_call (outcome : ℕ → Except NanonisError CommandResponse)
    (retry_count : ℕ) : Except NanonisError CommandResponse × ℕ :=
  call_loop outcome 0 (retry_count + 1)

/-- Modelled from the spec: the error taxonomy of spec §7 names distinct
kinds, among them `ControllerError` (controller accepted and refused) and
`ProtocolError` (malformed response).  This type lists the spec's transport
kinds so the code's raised kind can be compared against the spec's words. -/
inductive SpecErrorKind where
  | controllerError
  | protocolError
  | connectionError
  | timeoutError
  | invalidArgument
  | commandUnavailable
  deriving Repr, DecidableEq

/-- Classify each error kind of client/errors.py into the spec taxonomy. -/
def spec_kind : NanonisError → SpecErrorKind
  | .connectionErr _ => .connectionError
  | .timeoutErr _ => .timeoutError
  | .protocolErr _ => .protocolError
  | .invalidArgumentErr _ => .invalidArgument
  | .commandUnavailableErr _ => .commandUnavailable

/-! ### trajectory/monitor.py -/

/-- Python `==` on the values a spec map can hold (`old_value == new_value`,
monitor.py line 100): numeric values compare across `bool`/`int`/`float`
(`True == 1 == 1.0`), everything else compares within its own type. -/
def pyEq : PyValue → PyValue → Bool
  | .none, .none => true
  | .bool a, .bool b => a == b
  | .bool a, .int n => (if a then (1 : ℤ) else 0) == n
  | .bool a, .float q => ((if a then (1 : ℤ) else 0) : ℚ) == q
  | .int m, .bool b => m == (if b then (1 : ℤ) else 0)
  | .int m, .int n => m == n
  | .int m, .float q => (m : ℚ) == q
  | .float q, .bool b => q == ((if b then (1 : ℤ) else 0) : ℚ)
  | .float q, .int n => q == (n : ℚ)
  | .float p, .float q => p == q
  | .str s, .str t => s == t
  | _, _ => false

/-- `isinstance(v, bool)`. -/
def PyValue.isBool : PyValue → Bool
  | .bool _ => true
  | _ => false

/-- `isinstance(v, (int, float))` for non-boolean values (`bool` is handled
first in `_compute_delta_value`, so the Python `bool <: int` subtlety never
reaches this test there; we still follow Python and count `bool` in). -/
def PyValue.isNumeric : PyValue → Bool
  | .bool _ => true
  | .int _ => true
  | .float _ => true
  | _ => false

/-- `float(v)` for the values on which `_compute_delta_value` calls it. -/
def PyValue.toFloat : PyValue → ℚ
  | .bool b => if b then 1 else 0
  | .int n => n
  | .float q => q
  | _ => 0

/-- `_compute_delta_value` (monitor.py lines 170-175). -/
def compute_delta_value (old_value new_value : PyValue) : Option ℚ :=
  if old_value.isBool || new_value.isBool then Option.none
  else if old_value.isNumeric && new_value.isNumeric then
    some (new_value.toFloat - old_value.toFloat)
  else Option.none

/-- A spec snapshot: Python dict `label → value` as an association list. -/
abbrev SpecMap := List (String × PyValue)

/-- `dict.get(label)` with Python's `None` default. -/
def SpecMap.getv (m : SpecMap) (label : String) : PyValue :=
  (m.lookup label).getD .none

/-- One `action_events` row as `_record_spec_change_events` inserts it
(monitor.py lines 104-115). -/
structure ActionEvent where
  run_id : ℕ
  dt_s : ℚ
  action_kind : String
  detected_at_utc : String
  spec_label : String
  signal_window_start_dt_s : ℚ
  signal_window_end_dt_s : ℚ
  delta_value : Option ℚ
  old_value : PyValue
  new_value : PyValue
  deriving Repr, DecidableEq

/-- The runner's spec-snapshot state (`_previous_specs_by_label` and
`_has_previous_specs_snapshot`, monitor.py lines 48-49). -/
structure SpecSnapshotState where
  previous : SpecMap
  hasPrevious : Bool
  deriving Repr, DecidableEq

/-- Python's `<` on strings restricted to their character lists:
lexicographic codepoint order, written structurally so it evaluates. -/
def str_lt_chars : List Char → List Char → Bool
  | [], [] => false
  | [], _ :: _ => true
  | _ :: _, [] => false
  | a :: as, b :: bs =>
    if a.val < b.val then true
    else if b.val < a.val then false
    else str_lt_chars as bs

/-- Python's `<=` on strings (total order used by `sorted`). -/
def str_le (a b : String) : Bool := !(str_lt_chars b.data a.data)

/-- Insert into a `str_le`-sorted list. -/
def insert_sorted (a : String) : List String → List String
  | [] => [a]
  | b :: rest => if str_le a b then a :: b :: rest else b :: insert_sorted a rest

/-- Python's `sorted` on strings, as a structural insertion sort. -/
def sort_labels : List String → List String
  | [] => []
  | a :: rest => insert_sorted a (sort_labels rest)

/-- `sorted(set(previous) | set(current))` over the dict keys
(monitor.py line 92). -/
def changed_labels (previous current : SpecMap) : List String :=
  sort_labels ((previous.map Prod.fst ++ current.map Prod.fst).dedup)

/-- The event built for one changed label (monitor.py lines 97-115). -/
def spec_change_event (run_id : ℕ) (action_window_s : ℚ)
    (detected_at_utc : String) (dt_s : ℚ) (previous current : SpecMap)
    (spec_label : String) : Option ActionEvent :=
  let old_value := previous.getv spec_label
  let new_value := current.getv spec_label
  if pyEq old_value new_value then Option.none
  else
    some ⟨run_id, dt_s, "spec-change", detected_at_utc, spec_label,
      dt_s - action_window_s, dt_s + action_window_s,
      compute_delta_value old_value new_value, old_value, new_value⟩

/-- `TrajectoryMonitorRunner._record_spec_change_events` (monitor.py lines
84-117): on the first tick only the snapshot is stored; afterwards one event
is inserted per label whose old and new values differ, and the snapshot is
replaced. -/
def record_spec_change_events (run_id : ℕ) (action_window_s : ℚ)
    (detected_at_utc : String) (st : SpecSnapshotState) (dt_s : ℚ)
    (spec_values : SpecMap) : List ActionEvent × SpecSnapshotState :=
  if !st.hasPrevious then ([], ⟨spec_values, true⟩)
  else
    ((changed_labels st.previous spec_values).filterMap
        (spec_change_event run_id action_window_s detected_at_utc dt_s
          st.previous spec_values),
      ⟨spec_values, true⟩)

/-- The event list of one non-first tick, given the previous snapshot (the
`.1` of `_record_spec_change_events` in its has-previous state). -/
def tick_spec_events (run_id : ℕ) (action_window_s : ℚ)
    (detected_at_utc : String) (prev : SpecMap) (dt_s : ℚ)
    (spec_values : SpecMap) : List ActionEvent :=
  (record_spec_change_events run_id action_window_s detected_at_utc
    ⟨prev, true⟩ dt_s spec_values).1

/-- One monitor tick's inputs for the spec-change pipeline: the recorded
`dt_s`, the wall-clock string and the polled spec map. -/
structure SpecTick where
  dt_s : ℚ
  detected_at_utc : String
  specs : SpecMap
  deriving Repr, DecidableEq

/-- Iterate `record_spec_change_events` over consecutive ticks, returning the
per-tick event lists (step 7 of the per-iteration contract, driven by
`run_iterations`). -/
def spec_events_from (run_id : ℕ) (action_window_s : ℚ)
    (st : SpecSnapshotState) : List SpecTick → List (List ActionEvent)
  | [] => []
  | t :: rest =>
    let r := record_spec_change_events run_id action_window_s t.detected_at_utc
      st t.dt_s t.specs
    r.1 :: spec_events_from run_id action_window_s r.2 rest

/-- The runner's per-tick event lists starting from the initial state
(monitor.py lines 48-49: empty snapshot, no previous). -/
def spec_events (run_id : ℕ) (action_window_s : ℚ)
    (ticks : List SpecTick) : List (List ActionEvent) :=
  spec_events_from run_id action_window_s ⟨[], false⟩ ticks

/-! ### trajectory/monitor.py — run_iterations

The store the runner drives is abstracted to its observable tables (the
SQLite-level transactional pair insert is modelled separately below); the
drift-aware wait is a pure sleep and the per-tick `dt_s` reading is supplied
as a sequence, since no claim here concerns the cadence itself. -/

/-- The tables the runner touches, as the runner observes them. -/
structure MonStore where
  signal_catalog_rows : ℕ
  spec_catalog_rows : ℕ
  signal_samples : List (ℚ × SpecMap)
  spec_samples : List (ℚ × SpecMap)
  action_events : List ActionEvent
  monitor_errors : List String
  deriving Repr, DecidableEq

/-- `insert_sample_pair` as the runner sees it: both rows appear together
(the rollback behaviour of the underlying transaction is proved on the
SQLite model below). -/
def MonStore.insertSamplePair (s : MonStore) (dt_s : ℚ)
    (signal_values spec_values : SpecMap) : MonStore :=
  ⟨s.signal_catalog_rows, s.spec_catalog_rows,
    s.signal_samples ++ [(dt_s, signal_values)],
    s.spec_samples ++ [(dt_s, spec_values)],
    s.action_events, s.monitor_errors⟩

/-- The runner's mutable fields (monitor.py lines 44-49): sample index,
per-segment catalog-id memos, spec snapshot. -/
structure RunnerState where
  sample_idx : ℕ
  signal_catalog_ids : List (ℕ × ℕ)
  spec_catalog_ids : List (ℕ × ℕ)
  snapshot : SpecSnapshotState
  deriving Repr, DecidableEq

/-- `_signal_catalog_id_for_segment` (monitor.py lines 134-144): reuse the
memoised id or lazily create the catalog row. -/
def ensure_signal_catalog (store : MonStore) (st : RunnerState)
    (segment_id : ℕ) : ℕ × MonStore × RunnerState :=
  match st.signal_catalog_ids.lookup segment_id with
  | some catalog_id => (catalog_id, store, st)
  | Option.none =>
    let created_id := store.signal_catalog_rows + 1
    (created_id,
      ⟨store.signal_catalog_rows + 1, store.spec_catalog_rows,
        store.signal_samples, store.spec_samples, store.action_events,
        store.monitor_errors⟩,
      ⟨st.sample_idx, (segment_id, created_id) :: st.signal_catalog_ids,
        st.spec_catalog_ids, st.snapshot⟩)

/-- `_spec_catalog_id_for_segment` (monitor.py lines 146-156). -/
def ensure_spec_catalog (store : MonStore) (st : RunnerState)
    (segment_id : ℕ) : ℕ × MonStore × RunnerState :=
  match st.spec_catalog_ids.lookup segment_id with
  | some catalog_id => (catalog_id, store, st)
  | Option.none =>
    let created_id := store.spec_catalog_rows + 1
    (created_id,
      ⟨store.signal_catalog_rows, store.spec_catalog_rows + 1,
        store.signal_samples, store.spec_samples, store.action_events,
        store.monitor_errors⟩,
      ⟨st.sample_idx, st.signal_catalog_ids,
        (segment_id, created_id) :: st.spec_catalog_ids, st.snapshot⟩)

/-- One tick of `run_iterations` (monitor.py lines 60-80): ensure the
segment's catalog rows, read `dt_s`, call both pollers (a raised exception
propagates, leaving the store and state as they are at that point), insert
the sample pair, record spec-change events, advance the index. -/
def run_one_iteration (run_id : ℕ) (action_window_s : ℚ) (rotate_entries : ℕ)
    (poll_signals poll_specs : ℕ → Except String SpecMap)
    (dt_of : ℕ → ℚ) (clock : ℕ → String) (store : MonStore)
    (st : RunnerState) : Except (String × MonStore × RunnerState)
      (MonStore × RunnerState) :=
  let sample_idx := st.sample_idx
  let segment_id := sample_idx / rotate_entries
  let r1 := ensure_signal_catalog store st segment_id
  let r2 := ensure_spec_catalog r1.2.1 r1.2.2 segment_id
  let store := r2.2.1
  let st := r2.2.2
  let dt_s := dt_of sample_idx
  match poll_signals sample_idx with
  | .error e => .error (e, store, st)
  | .ok signal_values =>
    match poll_specs sample_idx with
    | .error e => .error (e, store, st)
    | .ok spec_values =>
      let store := store.insertSamplePair dt_s signal_values spec_values
      let ev := record_spec_change_events run_id action_window_s
        (clock sample_idx) st.snapshot dt_s spec_values
      let store : MonStore :=
        ⟨store.signal_catalog_rows, store.spec_catalog_rows,
          store.signal_samples, store.spec_samples,
          store.action_events ++ ev.1, store.monitor_errors⟩
      .ok (store, ⟨sample_idx + 1, st.signal_catalog_ids, st.spec_catalog_ids,
        ev.2⟩)

/-- `TrajectoryMonitorRunner.run_iterations` (monitor.py lines 55-82): run
`count` ticks; a poller exception propagates immediately with the store in
its at-that-point state (there is no handler around the loop body).  On
success returns the completed count (`count`). -/
def run_iterations (run_id : ℕ) (action_window_s : ℚ) (rotate_entries : ℕ)
    (poll_signals poll_specs : ℕ → Except String SpecMap)
    (dt_of : ℕ → ℚ) (clock : ℕ → String) :
    ℕ → MonStore → RunnerState →
      Except (String × MonStore × RunnerState) (MonStore × RunnerState × ℕ)
  | 0, store, st => .ok (store, st, 0)
  | count + 1, store, st =>
    match run_one_iteration run_id action_window_s rotate_entries poll_signals
        poll_specs dt_of clock store st with
    | .error e => .error e
    | .ok (store', st') =>
      match run_iterations run_id action_window_s rotate_entries poll_signals
          poll_specs dt_of clock count store' st' with
      | .error e => .error e
      | .ok (store'', st'', completed) => .ok (store'', st'', completed + 1)

/-! ### trajectory/sqlite_store.py

The SQLite database state: each table is a list of rows, each table keeps an
AUTOINCREMENT counter, and `PRAGMA foreign_keys = ON` (sqlite_store.py line
15) makes every declared FOREIGN KEY checked on insert.  A `with
self._connection:` block is a transaction: it commits the new state on
success and rolls back to the entry state when a statement raises. -/

/-- A row of `runs`. -/
structure RunRow where
  id : ℕ
  run_name : String
  started_at_utc : String
  deriving Repr, DecidableEq

/-- A row of `signal_catalog` / `spec_catalog`. -/
structure CatalogRow where
  id : ℕ
  run_id : ℕ
  label : String
  unit : Option String
  metadata_json : Option String
  deriving Repr, DecidableEq

/-- A row of `signal_samples` / `spec_samples`.  `dt_s REAL NOT NULL` carries
no sign constraint in the schema (sqlite_store.py lines 48-69). -/
structure SampleRow where
  id : ℕ
  run_id : ℕ
  ref_id : ℕ
  dt_s : ℚ
  values_json : String
  deriving Repr, DecidableEq

/-- Store-level failures: the `sqlite3.IntegrityError`s the schema can raise
and the duplicate-run-name `ValueError` of `create_run`. -/
inductive StoreError where
  | fkViolation (table : String)
  | duplicateRunName (run_name : String)
  deriving Repr, DecidableEq

/-- The database state for the tables the claims touch. -/
structure SQLiteState where
  runs : List RunRow
  signal_catalog : List CatalogRow
  spec_catalog : List CatalogRow
  signal_samples : List SampleRow
  spec_samples : List SampleRow
  next_signal_sample_id : ℕ
  next_spec_sample_id : ℕ
  deriving Repr, DecidableEq

/-- `FOREIGN KEY(run_id) REFERENCES runs(id)`. -/
def SQLiteState.hasRun (s : SQLiteState) (run_id : ℕ) : Bool :=
  s.runs.any (fun r => r.id = run_id)

/-- `FOREIGN KEY(signal_id, run_id) REFERENCES signal_catalog(id, run_id)`
(and its spec twin): the composite pair must exist in the parent table. -/
def catalogHasPair (catalog : List CatalogRow) (ref_id run_id : ℕ) : Bool :=
  catalog.any (fun c => c.id = ref_id ∧ c.run_id = run_id)

/-- The single `INSERT INTO signal_samples` statement (sqlite_store.py lines
180-186, also the first statement of `insert_sample_pair`): checked against
the two declared foreign keys, then appended with the next rowid. -/
def insert_signal_sample_stmt (s : SQLiteState) (run_id signal_id : ℕ)
    (dt_s : ℚ) (values_json : String) : Except StoreError (ℕ × SQLiteState) :=
  if !s.hasRun run_id then .error (.fkViolation "signal_samples")
  else if !catalogHasPair s.signal_catalog signal_id run_id then
    .error (.fkViolation "signal_samples")
  else
    let rowid := s.next_signal_sample_id
    .ok (rowid,
      ⟨s.runs, s.signal_catalog, s.spec_catalog,
        s.signal_samples ++ [⟨rowid, run_id, signal_id, dt_s, values_json⟩],
        s.spec_samples, s.next_signal_sample_id + 1, s.next_spec_sample_id⟩)

/-- The single `INSERT INTO spec_samples` statement (sqlite_store.py lines
198-204, also the second statement of `insert_sample_pair`). -/
def insert_spec_sample_stmt (s : SQLiteState) (run_id spec_id : ℕ)
    (dt_s : ℚ) (vals_json : String) : Except StoreError (ℕ × SQLiteState) :=
  if !s.hasRun run_id then .error (.fkViolation "spec_samples")
  else if !catalogHasPair s.spec_catalog spec_id run_id then
    .error (.fkViolation "spec_samples")
  else
    let rowid := s.next_spec_sample_id
    .ok (rowid,
      ⟨s.runs, s.signal_catalog, s.spec_catalog, s.signal_samples,
        s.spec_samples ++ [⟨rowid, run_id, spec_id, dt_s, vals_json⟩],
        s.next_signal_sample_id, s.next_spec_sample_id + 1⟩)

/-- `TrajectorySQLiteStore.insert_signal_sample` (sqlite_store.py lines
171-187): one statement inside its own transaction. -/
def insert_signal_sample (s : SQLiteState) (run_id signal_id : ℕ) (dt_s : ℚ)
    (values_json : String) : Except StoreError (ℕ × SQLiteState) :=
  insert_signal_sample_stmt s run_id signal_id dt_s values_json

/-- `TrajectorySQLiteStore.insert_sample_pair` (sqlite_store.py lines
207-232): both INSERTs run inside one `with self._connection:` transaction —
an error from either statement rolls the whole block back to the entry
state (the caller keeps `s`), so no intermediate state escapes. -/
def insert_sample_pair (s : SQLiteState) (run_id signal_id spec_id : ℕ)
    (dt_s : ℚ) (signal_values_json spec_vals_json : String) :
    Except StoreError ((ℕ × ℕ) × SQLiteState) :=
  match insert_signal_sample_stmt s run_id signal_id dt_s signal_values_json with
  | .error e => .error e
  | .ok (signal_row_id, s1) =>
    match insert_spec_sample_stmt s1 run_id spec_id dt_s spec_vals_json with
    | .error e => .error e
    | .ok (spec_row_id, s2) => .ok ((signal_row_id, spec_row_id), s2)

/-- The state after `insert_sample_pair`: the committed state on success, the
rolled-back entry state on failure. -/
def insert_sample_pair_state (s : SQLiteState) (run_id signal_id spec_id : ℕ)
    (dt_s : ℚ) (signal_values_json spec_vals_json : String) : SQLiteState :=
  match insert_sample_pair s run_id signal_id spec_id dt_s signal_values_json
      spec_vals_json with
  | .error _ => s
  | .ok (_, s') => s'

/-- `TrajectorySQLiteStore.create_run` (sqlite_store.py lines 115-133): reject
a duplicate `run_name` (pre-check and UNIQUE constraint agree), otherwise
append the run row. -/
def create_run (s : SQLiteState) (run_name started_at_utc : String) :
    Except StoreError (ℕ × SQLiteState) :=
  if s.runs.any (fun r => r.run_name = run_name) then
    .error (.duplicateRunName run_name)
  else
    let new_id := s.runs.length + 1
    .ok (new_id,
      ⟨s.runs ++ [⟨new_id, run_name, started_at_utc⟩], s.signal_catalog,
        s.spec_catalog, s.signal_samples, s.spec_samples,
        s.next_signal_sample_id, s.next_spec_sample_id⟩)

/-! ### Concrete fixtures

Closed instances used by counterexamples and witnesses; the numeric values
follow the repository's own configuration and tests
(`bias_v: min=-5, max=5, max_step=0.1`, `cooldown_s=2.0`, ...). -/

/-- The `bias_v` limit of src/tests/test_safety_policy.py lines 14-16. -/
def limBias : ChannelLimit := ⟨-5, 5, 1/10, Option.none, 0, false, 1/20⟩

/-- A dry-run policy holding `limBias`. -/
def polBias : WritePolicy := ⟨true, true, [("bias_v", limBias)], Option.none, []⟩

/-- A live (non-dry-run) plan `2.0 → 2.2` under `limBias`. -/
def planLive : WritePlan :=
  ⟨"bias_v", 2, 11/5, 11/5, [21/10, 11/5], 1/20, false, Option.none⟩

/-- The same plan with `dry_run = true`. -/
def planDry : WritePlan :=
  ⟨"bias_v", 2, 11/5, 11/5, [21/10, 11/5], 1/20, true, Option.none⟩

/-- A channel with `cooldown_s = 2`. -/
def limCd : ChannelLimit := ⟨0, 1, 1, Option.none, 2, false, 1/20⟩

/-- A live policy whose last write on `"ch"` was recorded at monotonic 10.0. -/
def polCd : WritePolicy := ⟨true, false, [("ch", limCd)], Option.none, [("ch", 10)]⟩

/-- A limit with bounds `[-1, 1]` and `max_step = 1`. -/
def limNarrow : ChannelLimit := ⟨-1, 1, 1, Option.none, 0, false, 1/20⟩

/-- A dry-run policy holding `limNarrow`. -/
def polNarrow : WritePolicy := ⟨true, true, [("ch", limNarrow)], Option.none, []⟩

/-- The slew-configured limit of src/tests/test_safety_policy.py lines
146-155 (`max_step=1.0, max_slew_per_s=0.5, ramp_interval_s=0.1`). -/
def limSlew : ChannelLimit := ⟨-5, 5, 1, some (1/2), 0, false, 1/10⟩

/-- A dry-run policy holding `limSlew`. -/
def polSlew : WritePolicy := ⟨true, true, [("bias_v", limSlew)], Option.none, []⟩

/-- The ramp-with-slew limit of spec §8 scenario 3
(`max_step=0.1, max_slew_per_s=0.5, ramp_interval_s=0.1`). -/
def limRamp : ChannelLimit := ⟨-5, 5, 1/10, some (1/2), 0, false, 1/10⟩

/-- The eight steps the scenario-3 ramp `2.0 → 2.4` produces under
`limRamp` (slew caps each tick at 0.05). -/
def stepsRamp : List ℚ :=
  [41/20, 21/10, 43/20, 11/5, 9/4, 23/10, 47/20, 12/5]

/-- A database with one run `r1` and one catalog row (id 1) per category. -/
def storeR1 : SQLiteState :=
  ⟨[⟨1, "r1", "W"⟩], [⟨1, 1, "segment-0", Option.none, Option.none⟩],
    [⟨1, 1, "segment-0", Option.none, Option.none⟩], [], [], 1, 1⟩

/-- Pollers that always answer `{Z: 1.0}`. -/
def okPolls : ℕ → Except String SpecMap := fun _ => .ok [("Z", .float 1)]

/-- A spec poller that raises on the first tick. -/
def badSpecPolls : ℕ → Except String SpecMap :=
  fun k => if k = 0 then .error "boom" else .ok []

/-- The empty store the monitor runner starts from. -/
def mon0 : MonStore := ⟨0, 0, [], [], [], []⟩

/-- The runner state at the start of a run. -/
def rs0 : RunnerState := ⟨0, [], [], ⟨[], false⟩⟩

/-- A constant-zero `dt_s` reading sequence. -/
def dt0 : ℕ → ℚ := fun _ => 0

/-- A constant wall-clock string. -/
def clock0 : ℕ → String := fun _ => "t"

/-- The store after the first (failing) tick of the boom run: the two
segment-0 catalog rows were created before polling, nothing else. -/
def monBoom : MonStore := ⟨1, 1, [], [], [], []⟩

/-- The runner state at the point the first-tick spec poll raises. -/
def rsBoom : RunnerState := ⟨0, [(0, 1)], [(0, 1)], ⟨[], false⟩⟩

/-- The spec ticks of spec §8 scenario 5: `Bias` reads `0.5, 0.5, 0.75`. -/
def biasTicks : List SpecTick :=
  [⟨0, "t0", [("Bias", .float (1/2))]⟩, ⟨1, "t1", [("Bias", .float (1/2))]⟩,
    ⟨2, "t2", [("Bias", .float (3/4))]⟩]

/-- A session-outcome sequence whose every attempt is the controller-refusal
protocol error. -/
def refusalOutcome : ℕ → Except NanonisError CommandResponse :=
  fun _ => .error (.protocolErr
    "Controller returned error for command 'Bias_Set' (BiasSet): refused")

/-- Decidable equality for `Except`, so concrete results can be checked by
`decide`. -/
instance exceptDecEq {ε α : Type} [DecidableEq ε] [DecidableEq α] :
    DecidableEq (Except ε α) := fun x y =>
  match x, y with
  | .ok a, .ok b =>
    if h : a = b then isTrue (by rw [h])
    else isFalse (fun hc => h (Except.ok.inj hc))
  | .ok _, .error _ => isFalse (fun hc => Except.noConfusion hc)
  | .error _, .ok _ => isFalse (fun hc => Except.noConfusion hc)
  | .error e, .error f =>
    if h : e = f then isTrue (by rw [h])
    else isFalse (fun hc => h (Except.error.inj hc))

/-! ## Theorems -/

/-- `Except` bind on a success, by definition. -/
@[simp] theorem ok_bind {ε α β : Type} (a : α) (f : α → Except ε β) :
    (Except.ok a : Except ε α) >>= f = f a := rfl

/-- `Except` bind on a failure, by definition. -/
@[simp] theorem error_bind {ε α β : Type} (e : ε) (f : α → Except ε β) :
    (Except.error e : Except ε α) >>= f = Except.error e := rfl

/-- `throw` is `Except.error`. -/
@[simp] theorem throw_eq {ε α : Type} (e : ε) :
    (throw e : Except ε α) = Except.error e := rfl

/-- `pure` is `Except.ok`. -/
@[simp] theorem pure_eq {ε α : Type} (a : α) :
    (pure a : Except ε α) = Except.ok a := rfl

/-- `isOk` on a success. -/
@[simp] theorem isOk_ok {ε α : Type} (a : α) :
    (Except.ok a : Except ε α).isOk = true := rfl

/-- `isOk` on a failure. -/
@[simp] theorem isOk_error {ε α : Type} (e : ε) :
    (Except.error e : Except ε α).isOk = false := rfl

/-- The execute loop applies every step. -/
theorem exec_loop_applied (i : ℚ) (att : ℕ) (l : List ℚ) :
    ∀ idx, (exec_loop i att idx l).1 = l.length := by
  induction l with
  | nil => intro idx; rfl
  | cons v rest ih => intro idx; simp [exec_loop, ih (idx + 1)]

/-- The execute loop hands exactly the plan's steps to the sender, in
order. -/
theorem exec_loop_sends (i : ℚ) (att : ℕ) (l : List ℚ) :
    ∀ idx, (exec_loop i att idx l).2.1 = l := by
  induction l with
  | nil => intro idx; rfl
  | cons v rest ih => intro idx; simp [exec_loop, ih (idx + 1)]

/-- The execute loop sleeps `interval_s` exactly between consecutive steps
(never after the last) when `interval_s > 0`, and never otherwise. -/
theorem exec_loop_sleeps (i : ℚ) (att : ℕ) (l : List ℚ) :
    ∀ idx, idx + l.length = att →
      (exec_loop i att idx l).2.2 =
        if 0 < i then List.replicate (l.length - 1) i else [] := by
  induction l with
  | nil => intro idx h; simp [exec_loop]
  | cons v rest ih =>
    intro idx h
    cases rest with
    | nil =>
      have hidx : ¬ idx < att - 1 := by simp at h; omega
      simp [exec_loop, hidx]
    | cons w rest' =>
      have hlen : idx + 1 + (w :: rest').length = att := by simp at h ⊢; omega
      have hidx : idx < att - 1 := by simp at h; omega
      have ih' := ih (idx + 1) hlen
      simp only [exec_loop] at ih' ⊢
      by_cases hi : 0 < i
      · simpa [hi, hidx, List.replicate_succ] using ih'
      · simpa [hi] using ih'

/-- C2: executing a plan with `dry_run == true` returns a report with
`applied_steps == 0` and `final_value == steps[-1]` without ever invoking the
sender; with `dry_run == false` it invokes the sender once per step in order,
reports `applied_steps == len(steps)`, carries `steps[-1]` in the final
sender invocation, and sleeps `interval_s` only between consecutive steps
(not after the last) when `interval_s > 0`. -/
theorem c2_execute_plan_dry_and_live (p : WritePolicy) (plan : WritePlan)
    (now_s : ℚ) (h : plan.steps ≠ []) :
    (plan.dry_run = true →
      (execute_plan p plan now_s).1.applied_steps = 0 ∧
      (execute_plan p plan now_s).1.final_value = plan.steps.getLast h ∧
      (execute_plan p plan now_s).2.1.sends = []) ∧
    (plan.dry_run = false →
      (execute_plan p plan now_s).2.1.sends = plan.steps ∧
      (execute_plan p plan now_s).1.applied_steps = plan.steps.length ∧
      (execute_plan p plan now_s).2.1.sends.getLast? =
        some (plan.steps.getLast h) ∧
      (execute_plan p plan now_s).2.1.sleeps =
        (if 0 < plan.interval_s then
          List.replicate (plan.steps.length - 1) plan.interval_s else [])) := by
  constructor
  · intro hdry
    simp [execute_plan, hdry, List.getLast?_eq_getLast plan.steps h]
  · intro hlive
    have hsends := exec_loop_sends plan.interval_s plan.steps.length plan.steps 0
    have happ := exec_loop_applied plan.interval_s plan.steps.length plan.steps 0
    have hsleep := exec_loop_sleeps plan.interval_s plan.steps.length plan.steps 0
      (by simp)
    simp [execute_plan, hlive, hsends, happ, hsleep,
      List.getLast?_eq_getLast plan.steps h]

/-- Witness for C2 at the concrete dry and live plans `2.0 → 2.2` of the
repository's own policy test. -/
theorem c2_witness :
    ((execute_plan polBias planDry 0).1.applied_steps = 0 ∧
      (execute_plan polBias planDry 0).1.final_value = planDry.steps.getLast
        (by decide) ∧
      (execute_plan polBias planDry 0).2.1.sends = []) ∧
    ((execute_plan polBias planLive 0).2.1.sends = planLive.steps ∧
      (execute_plan polBias planLive 0).1.applied_steps =
        planLive.steps.length ∧
      (execute_plan polBias planLive 0).2.1.sends.getLast? =
        some (planLive.steps.getLast (by decide)) ∧
      (execute_plan polBias planLive 0).2.1.sleeps =
        (if 0 < planLive.interval_s then
          List.replicate (planLive.steps.length - 1) planLive.interval_s
          else [])) :=
  ⟨(c2_execute_plan_dry_and_live polBias planDry 0 (by decide)).1 rfl,
    (c2_execute_plan_dry_and_live polBias planLive 0 (by decide)).2 rfl⟩

/-- The confirmation gate either passes or fails with
`ConfirmationRequired`; it can produce no other error. -/
theorem enforce_confirmation_cases (p : WritePolicy) (ch : String) (cv tv : ℚ)
    (reason : Option String) (conf rc : Bool) :
    enforce_confirmation p ch cv tv reason conf rc = .ok () ∨
    enforce_confirmation p ch cv tv reason conf rc =
      .error (.confirmationRequired ch) := by
  unfold enforce_confirmation
  cases rc with
  | false => simp
  | true =>
    cases conf with
    | true => simp
    | false =>
      cases hk : p.confirmation_hook with
      | none => simp
      | some hook =>
        by_cases hh : hook ch cv tv reason = true <;> simp [hh]

/-- The only error `_build_steps` can raise is the non-positive
`ramp_interval_s` violation. -/
theorem build_steps_error_eq (c t : ℚ) (L : ChannelLimit) (e : PolicyError)
    (h : build_steps c t L = .error e) : e = .rampIntervalNotPositive := by
  unfold build_steps at h
  by_cases h0 : t - c = 0
  · simp [h0] at h
  · simp only [h0, if_false] at h
    cases hs : L.max_slew_per_s with
    | none =>
      rw [hs] at h
      simp at h
      split at h <;> simp at h
    | some slew =>
      rw [hs] at h
      by_cases hi : L.ramp_interval_s ≤ 0
      · simp [hi] at h
        exact h.symm
      · simp [hi] at h
        split at h <;> simp at h

unseal Rat.mul Rat.add Rat.sub Rat.inv in
/-- C4 counterexample: channel `"ch"` has `cooldown_s = 2` and a last write
recorded at monotonic time 10; planning at `now_s = 12` (elapsed exactly
`cooldown_s`) succeeds, so the cooldown window is not inclusive as
claimed. -/
theorem c4_counterexample :
    limCd.cooldown_s = 2 ∧ polCd.last_write_at.lookup "ch" = some 10 ∧
    (plan_scalar_write polCd "ch" 0 (1/10) false Option.none 12).isOk = true := by
  refine ⟨rfl, rfl, ?_⟩
  decide

/-- C4 (amended): the cooldown window is exclusive at its boundary.  For a
channel with a recorded last write at `t`, planning fails with the cooldown
violation iff `cooldown_s > 0` and the elapsed time `now − t` is strictly
less than `cooldown_s`; in particular `cooldown_s == 0` never blocks, and
planning when the elapsed time equals `cooldown_s` exactly is allowed. -/
theorem c4_cooldown_window_exclusive (p : WritePolicy) (ch : String)
    (cur tgt : ℚ) (conf : Bool) (reason : Option String) (now t : ℚ)
    (L : ChannelLimit) (hA : p.allow_writes = true)
    (hL : p.limits.lookup ch = some L)
    (hB : ¬(tgt < L.min_value ∨ tgt > L.max_value))
    (hT : p.last_write_at.lookup ch = some t) :
    (∃ r, plan_scalar_write p ch cur tgt conf reason now =
        .error (.cooldownActive ch r)) ↔
      (0 < L.cooldown_s ∧ now - t < L.cooldown_s) := by
  have hred : plan_scalar_write p ch cur tgt conf reason now =
      (enforce_cooldown p ch L now >>= fun _ =>
        enforce_confirmation p ch cur tgt reason conf L.require_confirmation
          >>= fun _ =>
        build_steps cur tgt L >>= fun steps =>
        pure ⟨ch, cur, tgt, tgt, steps, L.ramp_interval_s, p.dry_run,
          reason⟩) := by
    simp [plan_scalar_write, ensure_writes_enabled, hA, require_channel_limit,
      hL, hB]
  rw [hred]
  constructor
  · rintro ⟨r, hr⟩
    by_cases h0 : L.cooldown_s ≤ 0
    · exfalso
      have hcool : enforce_cooldown p ch L now = .ok () := by
        simp [enforce_cooldown, h0]
      rw [hcool] at hr
      simp at hr
      rcases enforce_confirmation_cases p ch cur tgt reason conf
          L.require_confirmation with hc | hc <;> rw [hc] at hr <;> simp at hr
      cases hbs : build_steps cur tgt L with
      | error e =>
        rw [hbs] at hr
        have he := build_steps_error_eq _ _ _ _ hbs
        simp [he] at hr
      | ok steps =>
        rw [hbs] at hr
        simp at hr
    · have h0' : 0 < L.cooldown_s := lt_of_not_ge h0
      refine ⟨h0', ?_⟩
      by_cases helapsed : now - t < L.cooldown_s
      · exact helapsed
      · exfalso
        have hcool : enforce_cooldown p ch L now = .ok () := by
          simp [enforce_cooldown, h0, hT, helapsed]
        rw [hcool] at hr
        simp at hr
        rcases enforce_confirmation_cases p ch cur tgt reason conf
            L.require_confirmation with hc | hc <;> rw [hc] at hr <;>
          simp at hr
        cases hbs : build_steps cur tgt L with
        | error e =>
          rw [hbs] at hr
          have he := build_steps_error_eq _ _ _ _ hbs
          simp [he] at hr
        | ok steps =>
          rw [hbs] at hr
          simp at hr
  · rintro ⟨h1, h2⟩
    refine ⟨L.cooldown_s - (now - t), ?_⟩
    have hcool : enforce_cooldown p ch L now =
        .error (.cooldownActive ch (L.cooldown_s - (now - t))) := by
      simp [enforce_cooldown, not_le.2 h1, hT, h2]
    rw [hcool]
    simp

unseal Rat.mul Rat.add Rat.sub Rat.inv in
/-- Witness for C4 (amended) at the concrete cooldown policy: planning at
`now_s = 11.5` (elapsed 1.5 of the 2-second window) is blocked by
cooldown. -/
theorem c4_witness :
    ∃ r, plan_scalar_write polCd "ch" 0 (1/10) false Option.none (23/2) =
      .error (.cooldownActive "ch" r) :=
  (c4_cooldown_window_exclusive polCd "ch" 0 (1/10) false Option.none (23/2)
      10 limCd rfl (by decide) (by decide) rfl).mpr ⟨by decide, by decide⟩

/-- C7: `insert_sample_pair` is atomic — on success exactly one
`SignalSample` row and one `SpecSample` row are appended; and a pair insert
with a valid `signal_id` but an invalid `spec_id` (its first statement alone
would succeed) fails with the spec-samples FK violation and leaves both
sample tables unchanged. -/
theorem c7_insert_sample_pair_atomic (s : SQLiteState)
    (run_id signal_id spec_id : ℕ) (dt_s : ℚ) (sv pv : String) :
    (∀ ids s', insert_sample_pair s run_id signal_id spec_id dt_s sv pv =
        .ok (ids, s') →
      s'.signal_samples = s.signal_samples ++
        [⟨s.next_signal_sample_id, run_id, signal_id, dt_s, sv⟩] ∧
      s'.spec_samples = s.spec_samples ++
        [⟨s.next_spec_sample_id, run_id, spec_id, dt_s, pv⟩]) ∧
    (s.hasRun run_id = true →
      catalogHasPair s.signal_catalog signal_id run_id = true →
      catalogHasPair s.spec_catalog spec_id run_id = false →
      (insert_signal_sample_stmt s run_id signal_id dt_s sv).isOk = true ∧
      insert_sample_pair s run_id signal_id spec_id dt_s sv pv =
        .error (.fkViolation "spec_samples") ∧
      insert_sample_pair_state s run_id signal_id spec_id dt_s sv pv = s) := by
  constructor
  · intro ids s' h
    unfold insert_sample_pair at h
    cases h1 : insert_signal_sample_stmt s run_id signal_id dt_s sv with
    | error e => rw [h1] at h; exact absurd h (by simp)
    | ok r1 =>
      obtain ⟨sid, s1⟩ := r1
      rw [h1] at h
      dsimp only at h
      cases h2 : insert_spec_sample_stmt s1 run_id spec_id dt_s pv with
      | error e => rw [h2] at h; exact absurd h (by simp)
      | ok r2 =>
        obtain ⟨pid, s2⟩ := r2
        rw [h2] at h
        dsimp only at h
        simp only [Except.ok.injEq, Prod.mk.injEq] at h
        obtain ⟨-, rfl⟩ := h
        unfold insert_signal_sample_stmt at h1
        split at h1
        · exact absurd h1 (by simp)
        · split at h1
          · exact absurd h1 (by simp)
          · simp only [Except.ok.injEq, Prod.mk.injEq] at h1
            obtain ⟨-, rfl⟩ := h1
            unfold insert_spec_sample_stmt at h2
            split at h2
            · exact absurd h2 (by simp)
            · split at h2
              · exact absurd h2 (by simp)
              · simp only [Except.ok.injEq, Prod.mk.injEq] at h2
                obtain ⟨-, rfl⟩ := h2
                constructor <;> rfl
  · intro h1 h2 h3
    have hstmt1 : insert_signal_sample_stmt s run_id signal_id dt_s sv =
        .ok (s.next_signal_sample_id,
          ⟨s.runs, s.signal_catalog, s.spec_catalog,
            s.signal_samples ++
              [⟨s.next_signal_sample_id, run_id, signal_id, dt_s, sv⟩],
            s.spec_samples, s.next_signal_sample_id + 1,
            s.next_spec_sample_id⟩) := by
      simp [insert_signal_sample_stmt, h1, h2]
    have hstmt2 : ∀ s1 : SQLiteState, s1.hasRun run_id = true →
        s1.spec_catalog = s.spec_catalog →
        insert_spec_sample_stmt s1 run_id spec_id dt_s pv =
          .error (.fkViolation "spec_samples") := by
      intro s1 hr hc
      simp [insert_spec_sample_stmt, hr, hc, h3]
    have hstmt2' : insert_spec_sample_stmt
        ⟨s.runs, s.signal_catalog, s.spec_catalog,
          s.signal_samples ++
            [⟨s.next_signal_sample_id, run_id, signal_id, dt_s, sv⟩],
          s.spec_samples, s.next_signal_sample_id + 1, s.next_spec_sample_id⟩
        run_id spec_id dt_s pv = .error (.fkViolation "spec_samples") :=
      hstmt2 _ (by simpa [SQLiteState.hasRun] using h1) rfl
    refine ⟨by simp [hstmt1], ?_, ?_⟩
    · unfold insert_sample_pair
      rw [hstmt1]
      dsimp only
      rw [hstmt2']
    · unfold insert_sample_pair_state insert_sample_pair
      rw [hstmt1]
      dsimp only
      rw [hstmt2']

/-- Witness for C7 on the concrete one-run database: a pair insert against
spec id 99 (absent from `spec_catalog`) fails and changes nothing, even
though its signal statement alone succeeds; and a pair insert against the
valid ids appends exactly one row to each table. -/
theorem c7_witness :
    ((insert_signal_sample_stmt storeR1 1 1 0 "sv").isOk = true ∧
      insert_sample_pair storeR1 1 1 99 0 "sv" "pv" =
        .error (.fkViolation "spec_samples") ∧
      insert_sample_pair_state storeR1 1 1 99 0 "sv" "pv" = storeR1) ∧
    ∀ ids s', insert_sample_pair storeR1 1 1 1 0 "sv" "pv" = .ok (ids, s') →
      s'.signal_samples = storeR1.signal_samples ++ [⟨1, 1, 1, 0, "sv"⟩] ∧
      s'.spec_samples = storeR1.spec_samples ++ [⟨1, 1, 1, 0, "pv"⟩] :=
  ⟨(c7_insert_sample_pair_atomic storeR1 1 1 99 0 "sv" "pv").2
      (by decide) (by decide) (by decide),
    fun ids s' h =>
      (c7_insert_sample_pair_atomic storeR1 1 1 1 0 "sv" "pv").1 ids s' h⟩

unseal Rat.mul Rat.add Rat.sub Rat.inv in
/-- C9 counterexample: the schema carries no sign constraint on `dt_s` and
the insert paths never check it — an insert with `dt_s = -1` and valid
references succeeds directly and through the pair insert, so the store does
not reject negative `dt_s`. -/
theorem c9_counterexample :
    (insert_signal_sample storeR1 1 1 (-1) "v").isOk = true ∧
    (insert_sample_pair storeR1 1 1 1 (-1) "sv" "pv").isOk = true := by
  constructor <;> decide

/-- C9 (amended): the store enforces the foreign-key invariants on sample
inserts and the `run_name` uniqueness invariant, but it does not validate
`dt_s`: an insert with any `dt_s` — negative included — and valid references
succeeds. -/
theorem c9_store_invariants (s : SQLiteState) (run_id ref_id : ℕ)
    (dt_s : ℚ) (v : String) :
    (s.hasRun run_id = true →
      catalogHasPair s.signal_catalog ref_id run_id = true →
      (insert_signal_sample s run_id ref_id dt_s v).isOk = true) ∧
    (s.hasRun run_id = false →
      insert_signal_sample s run_id ref_id dt_s v =
        .error (.fkViolation "signal_samples")) ∧
    (catalogHasPair s.signal_catalog ref_id run_id = false →
      insert_signal_sample s run_id ref_id dt_s v =
        .error (.fkViolation "signal_samples")) ∧
    (∀ name at_utc, s.runs.any (fun r => r.run_name = name) = true →
      create_run s name at_utc = .error (.duplicateRunName name)) := by
  refine ⟨?_, ?_, ?_, ?_⟩
  · intro h1 h2
    simp [insert_signal_sample, insert_signal_sample_stmt, h1, h2]
  · intro h1
    simp [insert_signal_sample, insert_signal_sample_stmt, h1]
  · intro h2
    by_cases h1 : s.hasRun run_id <;>
      simp [insert_signal_sample, insert_signal_sample_stmt, h1, h2]
  · intro name at_utc h
    simp [create_run, h]

unseal Rat.mul Rat.add Rat.sub Rat.inv in
/-- Witness for C9 (amended): on the concrete one-run database, the negative
`dt_s` insert succeeds, the FK violations are rejected, and the duplicate
run name is rejected. -/
theorem c9_witness :
    (insert_signal_sample storeR1 1 1 (-1) "v").isOk = true ∧
    insert_signal_sample storeR1 2 1 (-1) "v" =
      .error (.fkViolation "signal_samples") ∧
    insert_signal_sample storeR1 1 99 (-1) "v" =
      .error (.fkViolation "signal_samples") ∧
    create_run storeR1 "r1" "W2" = .error (.duplicateRunName "r1") :=
  ⟨(c9_store_invariants storeR1 1 1 (-1) "v").1 (by decide) (by decide),
    (c9_store_invariants storeR1 2 1 (-1) "v").2.1 (by decide),
    (c9_store_invariants storeR1 1 99 (-1) "v").2.2.1 (by decide),
    (c9_store_invariants storeR1 1 1 (-1) "v").2.2.2 "r1" "W2" (by decide)⟩

/-- C8 counterexample: a response envelope with the non-empty error string
`" refused "` raises the protocol-error kind — client/errors.py defines no
distinct controller-refusal (`ControllerError`) kind, so in the spec's §7
taxonomy the raised error classifies as `protocolError`, not
`controllerError`. -/
theorem c8_counterexample :
    parse_response "Bias_Set" "BiasSet" (.triple " refused " 0 []) =
      .error (.protocolErr
        "Controller returned error for command 'Bias_Set' (BiasSet): refused")
      ∧
    ∀ msg : String, spec_kind (.protocolErr msg) ≠ .controllerError := by
  constructor
  · decide
  · intro msg
    simp [spec_kind]

/-- C8 (amended): a non-empty `error_string` makes `_parse_response` raise
`NanonisProtocolError` whose message carries the controller's (stripped)
error text verbatim, and the per-call retry loop never retries that error:
it surfaces after exactly one attempt. -/
theorem c8_controller_refusal_not_retried :
    (∀ (command method_name error_string : String) (sz : ℤ)
        (payload : List PyValue), py_strip error_string ≠ "" →
      parse_response command method_name
          (.triple error_string sz payload) =
        .error (.protocolErr
          ("Controller returned error for command '" ++ command ++ "' ("
            ++ method_name ++ "): " ++ py_strip error_string))) ∧
    (∀ (outcome : ℕ → Except NanonisError CommandResponse)
        (retry_count : ℕ) (msg : String),
      outcome 0 = .error (.protocolErr msg) →
      transport_call outcome retry_count = (.error (.protocolErr msg), 1)) := by
  constructor
  · intro command method_name error_string sz payload h
    simp [parse_response, h]
  · intro outcome retry_count msg h
    unfold transport_call call_loop
    rw [h]
    simp [retried_by_call_loop]

/-- Witness for C8 (amended) at the concrete refusal response and a session
whose attempts all return that refusal. -/
theorem c8_witness :
    parse_response "Bias_Set" "BiasSet" (.triple " refused " 0 []) =
      .error (.protocolErr
        ("Controller returned error for command '" ++ "Bias_Set" ++ "' ("
          ++ "BiasSet" ++ "): " ++ py_strip " refused ")) ∧
    transport_call refusalOutcome 3 =
      (.error (.protocolErr
        "Controller returned error for command 'Bias_Set' (BiasSet): refused"),
        1) :=
  ⟨c8_controller_refusal_not_retried.1 "Bias_Set" "BiasSet" " refused " 0 []
      (by decide),
    c8_controller_refusal_not_retried.2 refusalOutcome 3 _ rfl⟩

/-- `_build_steps` always succeeds when no slew is configured or the ramp
interval is positive. -/
theorem build_steps_ok_exists (c t : ℚ) (L : ChannelLimit)
    (h : L.max_slew_per_s = Option.none ∨ 0 < L.ramp_interval_s) :
    ∃ steps, build_steps c t L = .ok steps := by
  unfold build_steps
  by_cases h0 : t - c = 0
  · exact ⟨[t], by simp [h0]⟩
  · simp only [h0, if_false]
    rcases hs : L.max_slew_per_s with _ | slew
    · simp only [hs, pure_eq, ok_bind]
      split
      · exact ⟨_, rfl⟩
      · exact ⟨_, rfl⟩
    · have hpos : 0 < L.ramp_interval_s := by
        rcases h with hnone | hpos
        · rw [hs] at hnone; cases hnone
        · exact hpos
      have hni : ¬ L.ramp_interval_s ≤ 0 := not_le.2 hpos
      simp only [hs, hni, if_false, pure_eq, ok_bind]
      split
      · exact ⟨_, rfl⟩
      · exact ⟨_, rfl⟩

unseal Rat.mul Rat.add Rat.sub Rat.inv in
/-- C10: `plan_scalar_write` bounds-checks only the target — planning
succeeds for every `current_value`, including values outside the channel's
`[min_value, max_value]`; and because the steps interpolate linearly from
current to target, a plan whose current value lies outside the bounds can
carry non-final steps outside the bounds, as on the concrete narrow channel
(`[-1, 1]`, `max_step=1`) from current `-3` to target `1`, whose first step
`-2` lies below `min_value`. -/
theorem c10_current_value_not_bounds_checked (p : WritePolicy) (ch : String)
    (tgt : ℚ) (L : ChannelLimit) (confirmed : Bool) (reason : Option String)
    (now : ℚ) (hA : p.allow_writes = true)
    (hL : p.limits.lookup ch = some L)
    (hB : ¬(tgt < L.min_value ∨ tgt > L.max_value))
    (hC : enforce_cooldown p ch L now = .ok ())
    (hR : L.require_confirmation = false)
    (hS : L.max_slew_per_s = Option.none ∨ 0 < L.ramp_interval_s) :
    (∀ current : ℚ,
      (plan_scalar_write p ch current tgt confirmed reason now).isOk = true) ∧
    (plan_scalar_write polNarrow "ch" (-3) 1 false Option.none 0 =
      .ok ⟨"ch", -3, 1, 1, [-2, -1, 0, 1], 1/20, true, Option.none⟩ ∧
      ([(-2 : ℚ), -1, 0, 1].getD 0 0 < limNarrow.min_value ∧
        (0 : ℕ) < [(-2 : ℚ), -1, 0, 1].length - 1)) := by
  constructor
  · intro current
    obtain ⟨steps, hst⟩ := build_steps_ok_exists current tgt L hS
    have hconf : enforce_confirmation p ch current tgt reason confirmed
        L.require_confirmation = .ok () := by
      simp [enforce_confirmation, hR]
    simp [plan_scalar_write, ensure_writes_enabled, hA, require_channel_limit,
      hL, hB, hC, hconf, hst]
  · exact ⟨by decide, by decide, by decide⟩

unseal Rat.mul Rat.add Rat.sub Rat.inv in
/-- Witness for C10 at the concrete narrow channel: the hypotheses hold at
current `-3` (outside bounds) and planning succeeds. -/
theorem c10_witness :
    (plan_scalar_write polNarrow "ch" (-3) 1 false Option.none 0).isOk =
      true :=
  (c10_current_value_not_bounds_checked polNarrow "ch" 1 limNarrow false
      Option.none 0 rfl (by decide) (by decide) (by decide) (by decide)
      (Or.inl (by decide))).1 (-3)

/-- C1: the spec's `plan_single_step` (modelled above as
`plan_scalar_write_single_step`, which is what the repository's own tests
call; it is absent from src's policy.py) — under enabled writes, a
configured limit, an in-bounds target and a passed cooldown: it returns a
one-step plan `[target]` when the delta respects `max_step` and, when slew
is configured, `max_slew_per_s * interval_s`; it fails with a
`PolicyViolation` when `|target − current| > max_step`; and when slew is
configured it fails whenever `|target − current| > max_slew_per_s *
interval_s`. -/
theorem c1_single_step_plan (p : WritePolicy) (ch : String) (cur tgt : ℚ)
    (L : ChannelLimit) (interval_s : Option ℚ) (now : ℚ)
    (hA : p.allow_writes = true)
    (hL : p.limits.lookup ch = some L)
    (hB : ¬(tgt < L.min_value ∨ tgt > L.max_value))
    (hC : enforce_cooldown p ch L now = .ok ()) :
    ((|tgt - cur| ≤ L.max_step ∧
        (∀ slew, L.max_slew_per_s = some slew →
          |tgt - cur| ≤ slew * (interval_s.getD L.ramp_interval_s))) →
      plan_scalar_write_single_step p ch cur tgt interval_s now =
        .ok ⟨ch, cur, tgt, tgt, [tgt], interval_s.getD L.ramp_interval_s,
          p.dry_run, Option.none⟩) ∧
    (L.max_step < |tgt - cur| →
      plan_scalar_write_single_step p ch cur tgt interval_s now =
        .error (.singleStepTooLarge ch)) ∧
    (∀ slew, L.max_slew_per_s = some slew →
      slew * (interval_s.getD L.ramp_interval_s) < |tgt - cur| →
      ∃ e, plan_scalar_write_single_step p ch cur tgt interval_s now =
        .error e) := by
  refine ⟨?_, ?_, ?_⟩
  · rintro ⟨h1, h2⟩
    have hstep : ¬ |tgt - cur| > L.max_step := not_lt.2 h1
    rcases hs : L.max_slew_per_s with _ | slew
    · simp [plan_scalar_write_single_step, ensure_writes_enabled, hA,
        require_channel_limit, hL, hB, hC, hstep, hs]
    · have hsl : ¬ |tgt - cur| > slew * (interval_s.getD L.ramp_interval_s) :=
        not_lt.2 (h2 slew hs)
      simp [plan_scalar_write_single_step, ensure_writes_enabled, hA,
        require_channel_limit, hL, hB, hC, hstep, hs, hsl]
  · intro h
    simp [plan_scalar_write_single_step, ensure_writes_enabled, hA,
      require_channel_limit, hL, hB, hC, h]
  · intro slew hs h
    by_cases hstep : |tgt - cur| > L.max_step
    · exact ⟨.singleStepTooLarge ch,
        by simp [plan_scalar_write_single_step, ensure_writes_enabled, hA,
          require_channel_limit, hL, hB, hC, hstep]⟩
    · exact ⟨.singleStepSlewExceeded ch,
        by simp [plan_scalar_write_single_step, ensure_writes_enabled, hA,
          require_channel_limit, hL, hB, hC, hstep, hs, h]⟩

unseal Rat.mul Rat.add Rat.sub Rat.inv in
/-- Witness for C1 at the repository test's own numbers: under
`max_step=1, max_slew_per_s=0.5, ramp_interval_s=0.1`, a `0 → 0.2` write
with `interval_s=0.5` yields the one-step plan `[0.2]`; the same write with
`interval_s=0.1` is rejected (slew budget 0.05); and under `max_step=0.1` a
`0 → 0.2` write is rejected as too large a single step. -/
theorem c1_witness :
    plan_scalar_write_single_step polSlew "bias_v" 0 (1/5) (some (1/2)) 0 =
      .ok ⟨"bias_v", 0, 1/5, 1/5, [1/5], 1/2, true, Option.none⟩ ∧
    (∃ e, plan_scalar_write_single_step polSlew "bias_v" 0 (1/5)
      (some (1/10)) 0 = .error e) ∧
    plan_scalar_write_single_step polBias "bias_v" 0 (1/5) Option.none 0 =
      .error (.singleStepTooLarge "bias_v") := by
  refine ⟨?_, ?_, ?_⟩
  · exact (c1_single_step_plan polSlew "bias_v" 0 (1/5) limSlew (some (1/2)) 0
      rfl (by decide) (by decide) (by decide)).1
      ⟨by decide, by intro slew h; injection h with h2; rw [← h2]; decide⟩
  · exact (c1_single_step_plan polSlew "bias_v" 0 (1/5) limSlew (some (1/10))
      0 rfl (by decide) (by decide) (by decide)).2.2 (1/2) (by decide)
      (by decide)
  · exact (c1_single_step_plan polBias "bias_v" 0 (1/5) limBias Option.none 0
      rfl (by decide) (by decide) (by decide)).2.1 (by decide)

/-- The last element of the affine step family `c + d·i`, `i = 1..n`. -/
theorem range'_map_getLast (c d : ℚ) (n : ℕ) (hn : n ≠ 0) :
    ((List.range' 1 n).map (fun i : ℕ => c + d * (i : ℚ))).getLast? =
      some (c + d * (n : ℚ)) := by
  obtain ⟨m, rfl⟩ := Nat.exists_eq_succ_of_ne_zero hn
  rw [List.range'_concat, List.map_append]
  simp only [List.map_cons, List.map_nil, List.getLast?_concat]
  norm_num
  exact Or.inl (by ring)

/-- Prepending the start value turns the 1-based step family into the
0-based one. -/
theorem cons_range'_map (c d : ℚ) (n : ℕ) :
    c :: (List.range' 1 n).map (fun i : ℕ => c + d * (i : ℚ)) =
      (List.range' 0 (n + 1)).map (fun i : ℕ => c + d * (i : ℚ)) := by
  rw [List.range'_succ]
  simp

/-- Consecutive members of an affine family differ by the common increment,
so they chain under any bound dominating `|d|`. -/
theorem chain'_affine (bound c d : ℚ) (hd : |d| ≤ bound) :
    ∀ (n s : ℕ), List.Chain' (fun a b => |b - a| ≤ bound)
      ((List.range' s n).map (fun i : ℕ => c + d * (i : ℚ))) := by
  intro n
  induction n with
  | zero => intro s; simp
  | succ m ih =>
    intro s
    rw [List.range'_succ, List.map_cons, List.chain'_cons']
    refine ⟨?_, ih (s + 1)⟩
    intro y hy
    cases m with
    | zero => simp at hy
    | succ k =>
      rw [List.range'_succ, List.map_cons] at hy
      simp only [List.head?_cons, Option.mem_def, Option.some.injEq] at hy
      subst hy
      have harith : (c + d * ((s + 1 : ℕ) : ℚ)) - (c + d * (s : ℚ)) = d := by
        push_cast; ring
      rw [harith]
      exact hd

/-- Resolve the drift-repair branch of `_build_steps` over ℚ: the last
generated step is exactly the target, so the repair never fires. -/
theorem resolve_drift_repair (c t : ℚ) (n : ℕ) (hn : n ≠ 0) (steps : List ℚ)
    (hok : (if ((List.range' 1 n).map
          (fun i : ℕ => c + ((t - c) / (n : ℚ)) * (i : ℚ))).getLast? = some t
        then Except.ok (ε := PolicyError)
          ((List.range' 1 n).map (fun i : ℕ => c + ((t - c) / (n : ℚ)) * (i : ℚ)))
        else Except.ok
          (((List.range' 1 n).map
            (fun i : ℕ => c + ((t - c) / (n : ℚ)) * (i : ℚ))).dropLast ++ [t]))
      = .ok steps) :
    steps = (List.range' 1 n).map
      (fun i : ℕ => c + ((t - c) / (n : ℚ)) * (i : ℚ)) := by
  have hn0 : ((n : ℚ)) ≠ 0 := Nat.cast_ne_zero.2 hn
  have hlast := range'_map_getLast c ((t - c) / (n : ℚ)) n hn
  have ht : c + (t - c) / (n : ℚ) * (n : ℚ) = t := by
    rw [div_mul_cancel₀ _ hn0]; ring
  rw [if_pos (by rw [hlast, ht])] at hok
  exact (Except.ok.inj hok).symm

/-- Characterisation of a successful `_build_steps` with a non-zero delta:
the step count `n` is positive, dominates both ceiling bounds, and the steps
are the affine interpolation `c + (δ/n)·i`, `i = 1..n`. -/
theorem build_steps_ok_char (c t : ℚ) (L : ChannelLimit) (steps : List ℚ)
    (h0 : t - c ≠ 0)
    (hok : build_steps c t L = .ok steps) :
    ∃ n : ℕ, n ≠ 0 ∧
      |t - c| / L.max_step ≤ (n : ℚ) ∧
      (∀ slew, L.max_slew_per_s = some slew →
        |t - c| / (slew * L.ramp_interval_s) ≤ (n : ℚ)) ∧
      steps = (List.range' 1 n).map
        (fun i : ℕ => c + ((t - c) / (n : ℚ)) * (i : ℚ)) := by
  unfold build_steps at hok
  simp only [h0, if_false] at hok
  rcases hs : L.max_slew_per_s with _ | slew
  · simp only [hs, pure_eq, ok_bind] at hok
    set N : ℤ := max 1 ⌈|t - c| / L.max_step⌉ with hN
    have hN1 : (1 : ℤ) ≤ N := le_max_left _ _
    have hNn : ((N.toNat : ℤ)) = N := Int.toNat_of_nonneg (by omega)
    have hcast : ((N.toNat : ℚ)) = ((N : ℤ) : ℚ) := by exact_mod_cast hNn
    refine ⟨N.toNat, by omega, ?_, ?_, ?_⟩
    · rw [hcast]
      calc |t - c| / L.max_step ≤ (⌈|t - c| / L.max_step⌉ : ℚ) := Int.le_ceil _
        _ ≤ ((N : ℤ) : ℚ) := by exact_mod_cast le_max_right _ _
    · intro slew hsl; simp at hsl
    · exact resolve_drift_repair c t N.toNat (by omega) steps hok
  · by_cases hi : L.ramp_interval_s ≤ 0
    · simp only [hs, hi, if_true, error_bind] at hok
      cases hok
    · simp only [hs, hi, if_false, pure_eq, ok_bind] at hok
      set N : ℤ := max (max 1 ⌈|t - c| / L.max_step⌉)
        ⌈|t - c| / (slew * L.ramp_interval_s)⌉ with hN
      have hN1 : (1 : ℤ) ≤ N := le_trans (le_max_left _ _)
        (le_max_left _ _)
      have hNn : ((N.toNat : ℤ)) = N := Int.toNat_of_nonneg (by omega)
      have hcast : ((N.toNat : ℚ)) = ((N : ℤ) : ℚ) := by exact_mod_cast hNn
      refine ⟨N.toNat, by omega, ?_, ?_, ?_⟩
      · rw [hcast]
        calc |t - c| / L.max_step
            ≤ (⌈|t - c| / L.max_step⌉ : ℚ) := Int.le_ceil _
          _ ≤ ((N : ℤ) : ℚ) := by
            exact_mod_cast le_trans (le_max_right 1 _) (le_max_left _ _)
      · intro slew' hsl'
        cases hsl'
        rw [hcast]
        calc |t - c| / (slew * L.ramp_interval_s)
            ≤ (⌈|t - c| / (slew * L.ramp_interval_s)⌉ : ℚ) := Int.le_ceil _
          _ ≤ ((N : ℤ) : ℚ) := by exact_mod_cast le_max_right _ _
      · exact resolve_drift_repair c t N.toNat (by omega) steps hok

/-- C3: for every plan `_build_steps` produces under a `ChannelLimit` (with
the data-model invariants `max_step > 0`, `max_slew_per_s > 0` when set,
`ramp_interval_s > 0`): every consecutive pair of plan values — the step
from `current` to `steps[0]` included, and the drift-repaired final step
included — differs by at most `max_step` and, when slew is configured, by at
most `max_slew_per_s * ramp_interval_s`; the last step equals the target
exactly; and when `target == current` the plan is exactly `[target]`. -/
theorem c3_ramp_plan_steps (current target : ℚ) (L : ChannelLimit)
    (steps : List ℚ) (hms : 0 < L.max_step)
    (hslew : ∀ slew, L.max_slew_per_s = some slew → 0 < slew)
    (hint : 0 < L.ramp_interval_s)
    (hok : build_steps current target L = .ok steps) :
    List.Chain' (fun a b => |b - a| ≤ L.max_step) (current :: steps) ∧
    (∀ slew, L.max_slew_per_s = some slew →
      List.Chain' (fun a b => |b - a| ≤ slew * L.ramp_interval_s)
        (current :: steps)) ∧
    steps.getLast? = some target ∧
    (target = current → steps = [target]) := by
  by_cases h0 : target - current = 0
  · have ht : target = current := by linarith
    have hsteps : steps = [target] := by
      unfold build_steps at hok
      simp [h0] at hok
      exact hok.symm
    subst hsteps
    refine ⟨?_, ?_, by simp, fun _ => rfl⟩
    · simp [List.chain'_cons, ht, sub_self, abs_zero]
      exact hms.le
    · intro slew hs
      simp [List.chain'_cons, ht, sub_self, abs_zero]
      exact (mul_pos (hslew slew hs) hint).le
  · obtain ⟨n, hn, hbound, hslewbound, hsteps⟩ :=
      build_steps_ok_char current target L steps h0 hok
    subst hsteps
    have hn0 : ((n : ℚ)) ≠ 0 := Nat.cast_ne_zero.2 hn
    have hnpos : (0 : ℚ) < (n : ℚ) :=
      Nat.cast_pos.2 (Nat.pos_of_ne_zero hn)
    have habs : |(target - current) / (n : ℚ)| =
        |target - current| / (n : ℚ) := by
      rw [abs_div, abs_of_pos hnpos]
    have hstep_bound : |(target - current) / (n : ℚ)| ≤ L.max_step := by
      rw [habs, div_le_iff₀ hnpos, mul_comm]
      exact (div_le_iff₀ hms).1 hbound
    have hchain1 := chain'_affine L.max_step current
      ((target - current) / (n : ℚ)) hstep_bound (n + 1) 0
    rw [← cons_range'_map] at hchain1
    have hlastv : current + (target - current) / (n : ℚ) * (n : ℚ) = target := by
      rw [div_mul_cancel₀ _ hn0]; ring
    refine ⟨hchain1, ?_, ?_, ?_⟩
    · intro slew hs
      have hslpos : 0 < slew * L.ramp_interval_s :=
        mul_pos (hslew slew hs) hint
      have hsl_bound : |(target - current) / (n : ℚ)| ≤
          slew * L.ramp_interval_s := by
        rw [habs, div_le_iff₀ hnpos, mul_comm]
        exact (div_le_iff₀ hslpos).1 (hslewbound slew hs)
      have hch := chain'_affine (slew * L.ramp_interval_s) current
        ((target - current) / (n : ℚ)) hsl_bound (n + 1) 0
      rw [← cons_range'_map] at hch
      exact hch
    · rw [range'_map_getLast current ((target - current) / (n : ℚ)) n hn,
        hlastv]
    · intro ht
      exact absurd (sub_eq_zero_of_eq ht) h0

unseal Rat.mul Rat.add Rat.sub Rat.inv in
/-- Witness for C3 at spec §8 scenario 3: the ramp `2.0 → 2.4` under
`max_step=0.1, max_slew_per_s=0.5, ramp_interval_s=0.1` yields the eight
slew-capped steps ending exactly at `2.4`, each consecutive delta within
both budgets. -/
theorem c3_witness :
    build_steps 2 (12/5) limRamp = .ok stepsRamp ∧
    List.Chain' (fun a b => |b - a| ≤ limRamp.max_step) (2 :: stepsRamp) ∧
    List.Chain' (fun a b => |b - a| ≤ (1/2) * limRamp.ramp_interval_s)
      (2 :: stepsRamp) ∧
    stepsRamp.getLast? = some (12/5) := by
  have hok : build_steps 2 (12/5) limRamp = .ok stepsRamp := by decide
  have h := c3_ramp_plan_steps 2 (12/5) limRamp stepsRamp (by decide)
    (by intro slew hsl; injection hsl with h2; rw [← h2]; decide)
    (by decide) hok
  exact ⟨hok, h.1, h.2.1 (1/2) rfl, h.2.2.1⟩

/-- Lazy catalog creation leaves `signal_samples` untouched. -/
@[simp] theorem ensure_signal_catalog_signal_samples (store : MonStore)
    (st : RunnerState) (seg : ℕ) :
    (ensure_signal_catalog store st seg).2.1.signal_samples =
      store.signal_samples := by
  unfold ensure_signal_catalog; split <;> rfl

/-- Lazy catalog creation leaves `spec_samples` untouched. -/
@[simp] theorem ensure_signal_catalog_spec_samples (store : MonStore)
    (st : RunnerState) (seg : ℕ) :
    (ensure_signal_catalog store st seg).2.1.spec_samples =
      store.spec_samples := by
  unfold ensure_signal_catalog; split <;> rfl

/-- Lazy catalog creation leaves `monitor_errors` untouched. -/
@[simp] theorem ensure_signal_catalog_monitor_errors (store : MonStore)
    (st : RunnerState) (seg : ℕ) :
    (ensure_signal_catalog store st seg).2.1.monitor_errors =
      store.monitor_errors := by
  unfold ensure_signal_catalog; split <;> rfl

/-- Lazy catalog creation leaves the sample index untouched. -/
@[simp] theorem ensure_signal_catalog_sample_idx (store : MonStore)
    (st : RunnerState) (seg : ℕ) :
    (ensure_signal_catalog store st seg).2.2.sample_idx = st.sample_idx := by
  unfold ensure_signal_catalog; split <;> rfl

/-- Lazy spec-catalog creation leaves `signal_samples` untouched. -/
@[simp] theorem ensure_spec_catalog_signal_samples (store : MonStore)
    (st : RunnerState) (seg : ℕ) :
    (ensure_spec_catalog store st seg).2.1.signal_samples =
      store.signal_samples := by
  unfold ensure_spec_catalog; split <;> rfl

/-- Lazy spec-catalog creation leaves `spec_samples` untouched. -/
@[simp] theorem ensure_spec_catalog_spec_samples (store : MonStore)
    (st : RunnerState) (seg : ℕ) :
    (ensure_spec_catalog store st seg).2.1.spec_samples =
      store.spec_samples := by
  unfold ensure_spec_catalog; split <;> rfl

/-- Lazy spec-catalog creation leaves `monitor_errors` untouched. -/
@[simp] theorem ensure_spec_catalog_monitor_errors (store : MonStore)
    (st : RunnerState) (seg : ℕ) :
    (ensure_spec_catalog store st seg).2.1.monitor_errors =
      store.monitor_errors := by
  unfold ensure_spec_catalog; split <;> rfl

/-- Lazy spec-catalog creation leaves the sample index untouched. -/
@[simp] theorem ensure_spec_catalog_sample_idx (store : MonStore)
    (st : RunnerState) (seg : ℕ) :
    (ensure_spec_catalog store st seg).2.2.sample_idx = st.sample_idx := by
  unfold ensure_spec_catalog; split <;> rfl

/-- A failing tick: the error is one of the two pollers' exceptions at the
tick's sample index, the sample tables and the monitor-errors table are
exactly as before the tick (the tick aborted before the pair insert and
nothing recorded the exception). -/
theorem run_one_iteration_error_char (rid : ℕ) (w : ℚ) (rot : ℕ)
    (ps pp : ℕ → Except String SpecMap) (dt : ℕ → ℚ) (ck : ℕ → String)
    (store : MonStore) (st : RunnerState) (e : String) (store' : MonStore)
    (st' : RunnerState)
    (h : run_one_iteration rid w rot ps pp dt ck store st =
      .error (e, store', st')) :
    store'.monitor_errors = store.monitor_errors ∧
    store'.signal_samples = store.signal_samples ∧
    store'.spec_samples = store.spec_samples ∧
    (ps st.sample_idx = .error e ∨ pp st.sample_idx = .error e) := by
  simp only [run_one_iteration] at h
  cases hps : ps st.sample_idx with
  | error e1 =>
    rw [hps] at h
    simp only [Except.error.injEq, Prod.mk.injEq] at h
    obtain ⟨he, hsto, hst2⟩ := h
    subst he; subst hsto; subst hst2
    exact ⟨by simp, by simp, by simp, Or.inl rfl⟩
  | ok sv =>
    rw [hps] at h
    cases hpp : pp st.sample_idx with
    | error e2 =>
      rw [hpp] at h
      simp only [Except.error.injEq, Prod.mk.injEq] at h
      obtain ⟨he, hsto, hst2⟩ := h
      subst he; subst hsto; subst hst2
      exact ⟨by simp, by simp, by simp, Or.inr rfl⟩
    | ok pv =>
      rw [hpp] at h
      simp at h

/-- A successful tick: the monitor-errors table is untouched and exactly one
row lands in each sample table. -/
theorem run_one_iteration_ok_char (rid : ℕ) (w : ℚ) (rot : ℕ)
    (ps pp : ℕ → Except String SpecMap) (dt : ℕ → ℚ) (ck : ℕ → String)
    (store : MonStore) (st : RunnerState) (store' : MonStore)
    (st' : RunnerState)
    (h : run_one_iteration rid w rot ps pp dt ck store st =
      .ok (store', st')) :
    store'.monitor_errors = store.monitor_errors ∧
    store'.signal_samples.length = store.signal_samples.length + 1 ∧
    store'.spec_samples.length = store.spec_samples.length + 1 := by
  simp only [run_one_iteration] at h
  cases hps : ps st.sample_idx with
  | error e1 => rw [hps] at h; simp at h
  | ok sv =>
    rw [hps] at h
    cases hpp : pp st.sample_idx with
    | error e2 => rw [hpp] at h; simp at h
    | ok pv =>
      rw [hpp] at h
      simp only [Except.ok.injEq, Prod.mk.injEq] at h
      obtain ⟨rfl, rfl⟩ := h
      refine ⟨by simp [MonStore.insertSamplePair], ?_, ?_⟩ <;>
        simp [MonStore.insertSamplePair]

/-- C5 (amended): a poller exception aborts the tick before the atomic
sample-pair insert — the failing run leaves the two sample tables paired
(equal length) with no row for the failing tick — but contrary to the claim
the exception is not recorded: `monitor_errors` is exactly as before the
run, and the loop does not continue — `run_iterations` propagates the
poller's exception.  A successful run also never touches
`monitor_errors`. -/
theorem c5_poller_exception_semantics (rid : ℕ) (w : ℚ) (rot : ℕ)
    (ps pp : ℕ → Except String SpecMap) (dt : ℕ → ℚ) (ck : ℕ → String) :
    ∀ (count : ℕ) (store : MonStore) (st : RunnerState),
      store.signal_samples.length = store.spec_samples.length →
      (∀ e store' st',
        run_iterations rid w rot ps pp dt ck count store st =
          .error (e, store', st') →
        store'.monitor_errors = store.monitor_errors ∧
        store'.signal_samples.length = store'.spec_samples.length ∧
        (∃ k, ps k = .error e ∨ pp k = .error e)) ∧
      (∀ store' st' completed,
        run_iterations rid w rot ps pp dt ck count store st =
          .ok (store', st', completed) →
        store'.monitor_errors = store.monitor_errors ∧
        store'.signal_samples.length = store'.spec_samples.length ∧
        completed = count) := by
  intro count
  induction count with
  | zero =>
    intro store st hpair
    constructor
    · intro e store' st' h
      simp [run_iterations] at h
    · intro store' st' completed h
      simp only [run_iterations, Except.ok.injEq, Prod.mk.injEq] at h
      obtain ⟨rfl, -, rfl⟩ := h
      exact ⟨rfl, hpair, rfl⟩
  | succ m ih =>
    intro store st hpair
    constructor
    · intro e store' st' h
      simp only [run_iterations] at h
      cases h1 : run_one_iteration rid w rot ps pp dt ck store st with
      | error tup =>
        obtain ⟨e1, store1, st1⟩ := tup
        rw [h1] at h
        dsimp only at h
        simp only [Except.error.injEq, Prod.mk.injEq] at h
        obtain ⟨he, hsto, hst2⟩ := h
        subst he; subst hsto; subst hst2
        obtain ⟨hm, hsig, hspec, hor⟩ :=
          run_one_iteration_error_char rid w rot ps pp dt ck store st e1
            store1 st1 h1
        exact ⟨hm, by rw [hsig, hspec, hpair], ⟨st.sample_idx, hor⟩⟩
      | ok tup =>
        obtain ⟨store1, st1⟩ := tup
        rw [h1] at h
        dsimp only at h
        obtain ⟨hm1, hl1, hl2⟩ :=
          run_one_iteration_ok_char rid w rot ps pp dt ck store st store1
            st1 h1
        have hpair1 : store1.signal_samples.length =
            store1.spec_samples.length := by rw [hl1, hl2, hpair]
        cases h2 : run_iterations rid w rot ps pp dt ck m store1 st1 with
        | error tup2 =>
          obtain ⟨e2, store2, st2⟩ := tup2
          rw [h2] at h
          dsimp only at h
          simp only [Except.error.injEq, Prod.mk.injEq] at h
          obtain ⟨he, hsto, hst2⟩ := h
          subst he; subst hsto; subst hst2
          obtain ⟨hm2, hp2, hk2⟩ :=
            ((ih store1 st1 hpair1).1) e2 store2 st2 h2
          exact ⟨by rw [hm2, hm1], hp2, hk2⟩
        | ok tup2 =>
          obtain ⟨store2, st2, n2⟩ := tup2
          rw [h2] at h
          dsimp only at h
          simp at h
    · intro store' st' completed h
      simp only [run_iterations] at h
      cases h1 : run_one_iteration rid w rot ps pp dt ck store st with
      | error tup =>
        obtain ⟨e1, store1, st1⟩ := tup
        rw [h1] at h
        dsimp only at h
        simp at h
      | ok tup =>
        obtain ⟨store1, st1⟩ := tup
        rw [h1] at h
        dsimp only at h
        obtain ⟨hm1, hl1, hl2⟩ :=
          run_one_iteration_ok_char rid w rot ps pp dt ck store st store1
            st1 h1
        have hpair1 : store1.signal_samples.length =
            store1.spec_samples.length := by rw [hl1, hl2, hpair]
        cases h2 : run_iterations rid w rot ps pp dt ck m store1 st1 with
        | error tup2 =>
          obtain ⟨e2, store2, st2⟩ := tup2
          rw [h2] at h
          dsimp only at h
          simp at h
        | ok tup2 =>
          obtain ⟨store2, st2, n2⟩ := tup2
          rw [h2] at h
          dsimp only at h
          simp only [Except.ok.injEq, Prod.mk.injEq] at h
          obtain ⟨hsto, hst2, hcomp⟩ := h
          subst hsto; subst hst2; subst hcomp
          obtain ⟨hm2, hp2, hn2⟩ :=
            ((ih store1 st1 hpair1).2) store2 st2 n2 h2
          exact ⟨by rw [hm2, hm1], hp2, by rw [hn2]⟩

unseal Rat.mul Rat.add Rat.sub Rat.inv in
/-- C5 counterexample: a two-tick run whose spec poller raises `"boom"` on
the first tick.  `run_iterations` propagates the exception instead of
continuing, and the resulting store holds no `MonitorError` row (and no
sample rows for the aborted tick) — contradicting the claim that the
exception is recorded as a `MonitorError` row and the loop continues with
the next tick. -/
theorem c5_counterexample :
    run_iterations 1 (5/2) 10 okPolls badSpecPolls dt0 clock0 2 mon0 rs0 =
      .error ("boom", monBoom, rsBoom) ∧
    monBoom.monitor_errors = [] ∧
    monBoom.signal_samples = [] ∧
    monBoom.spec_samples = [] := by
  refine ⟨by decide, rfl, rfl, rfl⟩

unseal Rat.mul Rat.add Rat.sub Rat.inv in
/-- Witness for C5 (amended) at the concrete boom run. -/
theorem c5_witness :
    monBoom.monitor_errors = mon0.monitor_errors ∧
    monBoom.signal_samples.length = monBoom.spec_samples.length ∧
    (∃ k, okPolls k = .error "boom" ∨ badSpecPolls k = .error "boom") :=
  ((c5_poller_exception_semantics 1 (5/2) 10 okPolls badSpecPolls dt0 clock0
      2 mon0 rs0 (by decide)).1) "boom" monBoom rsBoom (by decide)

/-- Membership in an insertion step. -/
theorem mem_insert_sorted (a x : String) (l : List String) :
    x ∈ insert_sorted a l ↔ x = a ∨ x ∈ l := by
  induction l with
  | nil => simp [insert_sorted]
  | cons b rest ih =>
    simp only [insert_sorted]
    split
    · simp [List.mem_cons]
    · simp only [List.mem_cons, ih]
      tauto

/-- Sorting the labels preserves membership. -/
theorem mem_sort_labels (x : String) (l : List String) :
    x ∈ sort_labels l ↔ x ∈ l := by
  induction l with
  | nil => simp [sort_labels]
  | cons a rest ih => simp [sort_labels, mem_insert_sorted, ih]

/-- A label is iterated by `_record_spec_change_events` iff it is a key of
either snapshot. -/
theorem mem_changed_labels (x : String) (prev curr : SpecMap) :
    x ∈ changed_labels prev curr ↔
      x ∈ prev.map Prod.fst ∨ x ∈ curr.map Prod.fst := by
  simp [changed_labels, mem_sort_labels, List.mem_dedup, List.mem_append]

/-- A label that is not a key looks up to `None`. -/
theorem getv_eq_none_of_not_mem_keys (m : SpecMap) (x : String)
    (h : ¬ x ∈ m.map Prod.fst) : m.getv x = .none := by
  have hl : m.lookup x = Option.none := by
    rw [List.lookup_eq_none_iff]
    intro p hp
    simp only [bne_iff_ne, ne_eq]
    intro he
    exact h (List.mem_map.2 ⟨p, hp, he.symm⟩)
  simp [SpecMap.getv, hl]

/-- One tick emits an event labelled `L` iff the old and new values of `L`
differ (Python equality, with `None` for a missing key). -/
theorem tick_spec_events_mem_iff (rid : ℕ) (w : ℚ) (detect : String)
    (prev : SpecMap) (dt : ℚ) (curr : SpecMap) (L : String) :
    (∃ e ∈ tick_spec_events rid w detect prev dt curr, e.spec_label = L) ↔
      pyEq (prev.getv L) (curr.getv L) = false := by
  unfold tick_spec_events record_spec_change_events
  simp only [Bool.not_true, Bool.false_eq_true, if_false]
  constructor
  · rintro ⟨e, he, hlab⟩
    rw [List.mem_filterMap] at he
    obtain ⟨l, hl, hfe⟩ := he
    unfold spec_change_event at hfe
    by_cases hpe : pyEq (prev.getv l) (curr.getv l) = true
    · rw [if_pos hpe] at hfe; cases hfe
    · rw [if_neg hpe] at hfe
      obtain rfl := Option.some.inj hfe
      dsimp only at hlab
      subst hlab
      exact Bool.not_eq_true _ ▸ (eq_false_of_ne_true hpe)
  · intro hne
    have hmem : L ∈ changed_labels prev curr := by
      rw [mem_changed_labels]
      by_contra hno
      push_neg at hno
      rw [getv_eq_none_of_not_mem_keys prev L hno.1,
        getv_eq_none_of_not_mem_keys curr L hno.2] at hne
      simp [pyEq] at hne
    refine ⟨⟨rid, dt, "spec-change", detect, L, dt - w, dt + w,
        compute_delta_value (prev.getv L) (curr.getv L), prev.getv L,
        curr.getv L⟩, ?_, rfl⟩
    rw [List.mem_filterMap]
    refine ⟨L, hmem, ?_⟩
    unfold spec_change_event
    rw [if_neg (by simp [hne])]

/-- Every emitted event carries the tick's old and new values for its label
and the delta `_compute_delta_value` derives from them. -/
theorem tick_spec_events_fields (rid : ℕ) (w : ℚ) (detect : String)
    (prev : SpecMap) (dt : ℚ) (curr : SpecMap) :
    ∀ e ∈ tick_spec_events rid w detect prev dt curr,
      e.old_value = prev.getv e.spec_label ∧
      e.new_value = curr.getv e.spec_label ∧
      e.delta_value = compute_delta_value e.old_value e.new_value := by
  intro e he
  unfold tick_spec_events record_spec_change_events at he
  simp only [Bool.not_true, Bool.false_eq_true, if_false] at he
  rw [List.mem_filterMap] at he
  obtain ⟨l, hl, hfe⟩ := he
  unfold spec_change_event at hfe
  dsimp only at hfe
  split at hfe
  · cases hfe
  · obtain rfl := Option.some.inj hfe
    exact ⟨rfl, rfl, rfl⟩

/-- The run produces one event list per tick. -/
theorem spec_events_from_length (rid : ℕ) (w : ℚ) :
    ∀ (ts : List SpecTick) (st : SpecSnapshotState),
      (spec_events_from rid w st ts).length = ts.length := by
  intro ts
  induction ts with
  | nil => intro st; rfl
  | cons t rest ih => intro st; simp [spec_events_from, ih]

/-- First tick from a no-snapshot state: no events, snapshot installed. -/
theorem spec_events_from_false_cons (rid : ℕ) (w : ℚ) (prev : SpecMap)
    (t : SpecTick) (rest : List SpecTick) :
    spec_events_from rid w ⟨prev, false⟩ (t :: rest) =
      [] :: spec_events_from rid w ⟨t.specs, true⟩ rest := rfl

/-- A tick from a has-snapshot state: the tick's events, snapshot
replaced. -/
theorem spec_events_from_true_cons (rid : ℕ) (w : ℚ) (prev : SpecMap)
    (t : SpecTick) (rest : List SpecTick) :
    spec_events_from rid w ⟨prev, true⟩ (t :: rest) =
      tick_spec_events rid w t.detected_at_utc prev t.dt_s t.specs ::
        spec_events_from rid w ⟨t.specs, true⟩ rest := rfl

/-- Indexing the per-tick event lists from a has-snapshot state, index 0. -/
theorem spec_events_from_true_getD_zero (rid : ℕ) (w : ℚ)
    (ts : List SpecTick) (prev : SpecMap) (h : 0 < ts.length) :
    (spec_events_from rid w ⟨prev, true⟩ ts).getD 0 [] =
      tick_spec_events rid w (ts.getD 0 ⟨0, "", []⟩).detected_at_utc prev
        (ts.getD 0 ⟨0, "", []⟩).dt_s (ts.getD 0 ⟨0, "", []⟩).specs := by
  cases ts with
  | nil => simp at h
  | cons t rest => rw [spec_events_from_true_cons]; rfl

/-- Indexing the per-tick event lists from a has-snapshot state, successor
index: the previous snapshot is the previous tick's spec map. -/
theorem spec_events_from_true_getD_succ (rid : ℕ) (w : ℚ) :
    ∀ (ts : List SpecTick) (prev : SpecMap) (k : ℕ), k + 1 < ts.length →
      (spec_events_from rid w ⟨prev, true⟩ ts).getD (k + 1) [] =
        tick_spec_events rid w
          (ts.getD (k + 1) ⟨0, "", []⟩).detected_at_utc
          (ts.getD k ⟨0, "", []⟩).specs
          (ts.getD (k + 1) ⟨0, "", []⟩).dt_s
          (ts.getD (k + 1) ⟨0, "", []⟩).specs := by
  intro ts
  induction ts with
  | nil => intro prev k h; simp at h
  | cons t rest ih =>
    intro prev k h
    rw [spec_events_from_true_cons]
    cases k with
    | zero =>
      have h0 : 0 < rest.length := by simp at h; omega
      simpa using spec_events_from_true_getD_zero rid w rest t.specs h0
    | succ j =>
      have hj : j + 1 < rest.length := by simp at h; omega
      simpa using ih t.specs j hj

/-- Closed form of `_compute_delta_value`: the delta is non-null iff both
values are numeric and non-boolean, and then equals
`float(new) − float(old)`. -/
theorem compute_delta_value_char (old_value new_value : PyValue) :
    compute_delta_value old_value new_value =
      (if (old_value.isNumeric && !old_value.isBool) &&
          (new_value.isNumeric && !new_value.isBool)
        then some (new_value.toFloat - old_value.toFloat)
        else Option.none) := by
  cases old_value <;> cases new_value <;> rfl

/-- The full run's first tick emits nothing. -/
theorem spec_events_getD_zero (rid : ℕ) (w : ℚ) (ts : List SpecTick)
    (h : 0 < ts.length) : (spec_events rid w ts).getD 0 [] = [] := by
  cases ts with
  | nil => simp at h
  | cons t rest =>
    unfold spec_events
    rw [spec_events_from_false_cons]
    rfl

/-- The full run's tick `k+1` events come from comparing tick `k`'s and tick
`k+1`'s spec maps. -/
theorem spec_events_getD_succ (rid : ℕ) (w : ℚ) (ts : List SpecTick) (k : ℕ)
    (h : k + 1 < ts.length) :
    (spec_events rid w ts).getD (k + 1) [] =
      tick_spec_events rid w (ts.getD (k + 1) ⟨0, "", []⟩).detected_at_utc
        (ts.getD k ⟨0, "", []⟩).specs
        (ts.getD (k + 1) ⟨0, "", []⟩).dt_s
        (ts.getD (k + 1) ⟨0, "", []⟩).specs := by
  cases ts with
  | nil => simp at h
  | cons t rest =>
    unfold spec_events
    rw [spec_events_from_false_cons]
    cases k with
    | zero =>
      have h0 : 0 < rest.length := by simp at h; omega
      simpa using spec_events_from_true_getD_zero rid w rest t.specs h0
    | succ j =>
      have hj : j + 1 < rest.length := by simp at h; omega
      simpa using spec_events_from_true_getD_succ rid w rest t.specs j hj

/-- C6: over a monitor run, an `ActionEvent` for a spec label is emitted at
a tick iff the label's value differs (Python equality, `None` for a missing
key) between that tick and the previous one; the first tick of a run never
emits an event; every emitted event carries the two ticks' values and the
derived delta; and `delta_value` is non-null — equal to
`float(new) − float(old)` — iff both the old and the new value are numeric
and non-boolean. -/
theorem c6_action_events_iff_spec_change (rid : ℕ) (w : ℚ)
    (ticks : List SpecTick) (L : String) :
    ((spec_events rid w ticks).length = ticks.length) ∧
    (0 < ticks.length → (spec_events rid w ticks).getD 0 [] = []) ∧
    (∀ k, k + 1 < ticks.length →
      ((∃ e ∈ (spec_events rid w ticks).getD (k + 1) [],
          e.spec_label = L) ↔
        pyEq ((ticks.getD k ⟨0, "", []⟩).specs.getv L)
          ((ticks.getD (k + 1) ⟨0, "", []⟩).specs.getv L) = false)) ∧
    (∀ k, ∀ e ∈ (spec_events rid w ticks).getD k [],
      e.delta_value = compute_delta_value e.old_value e.new_value) ∧
    (∀ old_value new_value : PyValue,
      compute_delta_value old_value new_value =
        (if (old_value.isNumeric && !old_value.isBool) &&
            (new_value.isNumeric && !new_value.isBool)
          then some (new_value.toFloat - old_value.toFloat)
          else Option.none)) := by
  refine ⟨spec_events_from_length rid w ticks _,
    spec_events_getD_zero rid w ticks, ?_, ?_, compute_delta_value_char⟩
  · intro k hk
    rw [spec_events_getD_succ rid w ticks k hk]
    exact tick_spec_events_mem_iff rid w _ _ _ _ L
  · intro k e he
    have hlen : (spec_events rid w ticks).length = ticks.length :=
      spec_events_from_length rid w ticks ⟨[], false⟩
    by_cases hk : k < (spec_events rid w ticks).length
    · rw [hlen] at hk
      cases k with
      | zero =>
        rw [spec_events_getD_zero rid w ticks hk] at he
        cases he
      | succ j =>
        rw [spec_events_getD_succ rid w ticks j hk] at he
        exact (tick_spec_events_fields rid w _ _ _ _ e he).2.2
    · rw [List.getD_eq_default _ _ (le_of_not_lt hk)] at he
      cases he

unseal Rat.mul Rat.add Rat.sub Rat.inv in
/-- Witness for C6 at spec §8 scenario 5 (`Bias` reads `0.5, 0.5, 0.75`):
no event on the first tick, none on the second (value unchanged), and an
event labelled `Bias` on the third (value changed). -/
theorem c6_witness :
    (∃ e ∈ (spec_events 1 (5/2) biasTicks).getD 2 [],
      e.spec_label = "Bias") ∧
    ¬ (∃ e ∈ (spec_events 1 (5/2) biasTicks).getD 1 [],
      e.spec_label = "Bias") ∧
    (spec_events 1 (5/2) biasTicks).getD 0 [] = [] := by
  refine ⟨?_, ?_, ?_⟩
  · exact ((c6_action_events_iff_spec_change 1 (5/2) biasTicks "Bias").2.2.1
      1 (by decide)).mpr (by decide)
  · intro hcon
    have hfalse := ((c6_action_events_iff_spec_change 1 (5/2) biasTicks
      "Bias").2.2.1 0 (by decide)).mp hcon
    exact absurd hfalse (by decide)
  · exact (c6_action_events_iff_spec_change 1 (5/2) biasTicks "Bias").2.1
      (by decide)

end Nanonis
